import Mathlib

/-!
altgpu: the coherent host/device buffer and the ALTREP vector on top of it

A shallow embedding of `src/managed_buffer.hpp` (class `ManagedBuffer`) and
`src/vector.hpp` (class template `AltGPUVector<Datatype>`).

Modelling conventions

* A `void*` that owns an allocation is an `Option Block`: `none` is `nullptr`,
  `some blk` is a pointer to a live block, carried together with the bytes it
  points to (a `ManagedBuffer` is the only owner of its two blocks, the copy
  constructor being deleted).
* `size_t` values are natural numbers; where the source computes in `size_t`
  the reduction modulo `2 ^ 64` is written out.  `R_xlen_t` values are integers.
* `std::abort()`, `Rf_error`, and an access outside a block end a call with an
  `Err`; a call that returns normally yields `Except.ok`.
* What the allocator and the CUDA runtime answer is not decided by the program:
  each call takes an `Env` that says what `std::malloc`, `cudaMalloc` and
  `cudaMemcpy` answer if the call reaches them.
* `debug_printf` only prints and is left out.
-/

namespace AltGPU

/-! ## Memory -/

/-- One byte of memory. -/
abbrev Byte := Nat

/-- A live allocation: its address and its current contents; the capacity of the
block is `bytes.length`. -/
structure Block where
  addr : Nat
  bytes : List Byte
deriving DecidableEq, Repr

/-- The answer of a successful allocator call: the address of the new block and the
(indeterminate) byte found at each offset of it. -/
structure Fresh where
  addr : Nat
  junk : Nat → Byte

/-- The block of `n` bytes that a successful allocation of `n` bytes hands out. -/
def Fresh.block (f : Fresh) (n : Nat) : Block :=
  { addr := f.addr, bytes := (List.range n).map f.junk }

/-- What the runtime answers during one call: `malloc` is the result of `std::malloc`
(`none` is a null result), `cudaMalloc` the result of `cudaMalloc` (`none` is an error
code), `cudaMemcpy` says whether `cudaMemcpy` reports `cudaSuccess`. -/
structure Env where
  malloc : Option Fresh
  cudaMalloc : Option Fresh
  cudaMemcpy : Bool

/-- The ways a call can end without returning. -/
inductive Err where
  /-- The source `allocateHost`: "Buffer already allocated", then `std::abort()`. -/
  | abortAlreadyAllocated
  /-- The source `allocateDevice`: "Size mismatch", then `std::abort()`. -/
  | abortSizeMismatch
  /-- The source `createOnHost`: "malloc failed", then `std::abort()`. -/
  | abortMalloc
  /-- The source `createOnDevice`: "cudaMalloc failed", then `std::abort()`. -/
  | abortCudaMalloc
  /-- The source `markHost`: "Cannot mark host dirty: buffer is empty", then `std::abort()`. -/
  | abortMarkHost
  /-- The source `markDevice`: "Cannot mark device dirty: buffer is empty", then `std::abort()`. -/
  | abortMarkDevice
  /-- The source `sync`: "cudaMemcpy H2D failed", then `std::abort()`. -/
  | abortMemcpyH2D
  /-- The source `sync`: "cudaMemcpy D2H failed", then `std::abort()`. -/
  | abortMemcpyD2H
  /-- The source `AltGPUVector_Unwrap`: `Rf_error("AltGPUVector appears to have been freed")`. -/
  | freed
  /-- The source `Get`: `Rcpp::stop("AltGPUVector::Get() encountered a null pointer!")`. -/
  | getNull
  /-- A read or write through a null pointer. -/
  | nullAccess
  /-- A read or write outside the block pointed to. -/
  | outOfBounds
deriving DecidableEq, Repr

/-- The errors that terminate the process (`std::abort()`). -/
def Err.isAbort : Err → Bool
  | .abortAlreadyAllocated | .abortSizeMismatch | .abortMalloc | .abortCudaMalloc
  | .abortMarkHost | .abortMarkDevice | .abortMemcpyH2D | .abortMemcpyD2H => true
  | _ => false

/-- Overwrite `data.length` bytes of a block starting at byte offset `off`. -/
def Block.store (blk : Block) (off : Nat) (data : List Byte) : Except Err Block :=
  if off + data.length ≤ blk.bytes.length then
    .ok { blk with bytes := blk.bytes.take off ++ data ++ blk.bytes.drop (off + data.length) }
  else .error .outOfBounds

/-- Read `count` bytes of a block starting at byte offset `off`. -/
def Block.load (blk : Block) (off count : Nat) : Except Err (List Byte) :=
  if off + count ≤ blk.bytes.length then .ok ((blk.bytes.drop off).take count)
  else .error .outOfBounds

/-- The call `cudaMemcpy(dst, src, count, kind)`: it copies the first `count` bytes of
`src` over the first `count` bytes of `dst`.  The result is `some dst'` on
`cudaSuccess` and `none` on an error code; touching memory outside either block, or
a null pointer, is an access error. -/
def cudaMemcpy (success : Bool) (dst src : Option Block) (count : Nat) :
    Except Err (Option Block) :=
  match dst, src with
  | some d, some s =>
    if count ≤ s.bytes.length ∧ count ≤ d.bytes.length then
      if success then .ok (some { d with bytes := s.bytes.take count ++ d.bytes.drop count })
      else .ok none
    else .error .outOfBounds
  | _, _ => .error .nullAccess

/-! ## `ManagedBuffer` (managed_buffer.hpp) -/

/-- The fields of `class ManagedBuffer`, with their default member initialisers. -/
structure ManagedBuffer where
  cpu_ptr : Option Block := none
  gpu_ptr : Option Block := none
  size : Nat := 0
  host_dirty : Bool := false
  device_dirty : Bool := false
deriving DecidableEq, Repr

/-- A call of `std::free` or `cudaFree` on the address of a block. -/
inductive Release where
  | free (addr : Nat)
  | cudaFree (addr : Nat)
deriving DecidableEq, Repr

namespace ManagedBuffer

/-- The default-constructed buffer (`ManagedBuffer() = default`). -/
def empty : ManagedBuffer := {}

/-- The source `createOnDevice()`: allocate the device side unless it exists. -/
def createOnDevice (env : Env) (b : ManagedBuffer) : Except Err ManagedBuffer :=
  match b.gpu_ptr with
  | some _ => .ok b
  | none =>
    match env.cudaMalloc with
    | none => .error .abortCudaMalloc
    | some f => .ok { b with gpu_ptr := some (f.block b.size) }

/-- The source `createOnHost()`: allocate the host side unless it exists. -/
def createOnHost (env : Env) (b : ManagedBuffer) : Except Err ManagedBuffer :=
  match b.cpu_ptr with
  | some _ => .ok b
  | none =>
    match env.malloc with
    | none => .error .abortMalloc
    | some f => .ok { b with cpu_ptr := some (f.block b.size) }

/-- The source `allocateHost(bytes)`. -/
def allocateHost (env : Env) (bytes : Nat) (b : ManagedBuffer) : Except Err ManagedBuffer :=
  if b.size ≠ 0 then .error .abortAlreadyAllocated
  else
    match createOnHost env { b with size := bytes } with
    | .error e => .error e
    | .ok b1 => .ok { b1 with host_dirty := true, device_dirty := false }

/-- The source `allocateDevice(bytes)`. -/
def allocateDevice (env : Env) (bytes : Nat) (b : ManagedBuffer) : Except Err ManagedBuffer :=
  if b.size ≠ 0 ∧ b.size ≠ bytes then .error .abortSizeMismatch
  else
    match createOnDevice env (if b.size = 0 then { b with size := bytes } else b) with
    | .error e => .error e
    | .ok b1 => .ok { b1 with device_dirty := true, host_dirty := false }

/-- The source `freeAll()`: the buffer afterwards, and the calls of `std::free` / `cudaFree` made. -/
def freeAll (b : ManagedBuffer) : ManagedBuffer × List Release :=
  ({ cpu_ptr := none, gpu_ptr := none, size := 0, host_dirty := false, device_dirty := false },
   (match b.cpu_ptr with | some h => [Release.free h.addr] | none => []) ++
   (match b.gpu_ptr with | some d => [Release.cudaFree d.addr] | none => []))

/-- The source `markHost()`. -/
def markHost (b : ManagedBuffer) : Except Err ManagedBuffer :=
  if b.size = 0 then .error .abortMarkHost
  else .ok { b with host_dirty := true, device_dirty := false }

/-- The source `markDevice()`. -/
def markDevice (b : ManagedBuffer) : Except Err ManagedBuffer :=
  if b.size = 0 then .error .abortMarkDevice
  else .ok { b with device_dirty := true, host_dirty := false }

/-- The source `hasHost()`. -/
def hasHost (b : ManagedBuffer) : Bool := b.cpu_ptr.isSome

/-- The source `hasDevice()`. -/
def hasDevice (b : ManagedBuffer) : Bool := b.gpu_ptr.isSome

/-- The source `isSynced()`. -/
def isSynced (b : ManagedBuffer) : Bool := !b.host_dirty && !b.device_dirty

/-- The source `hostNewer()`. -/
def hostNewer (b : ManagedBuffer) : Bool := b.host_dirty && !b.device_dirty

/-- The source `deviceNewer()`. -/
def deviceNewer (b : ManagedBuffer) : Bool := b.device_dirty && !b.host_dirty

/-- The source `sync()`. -/
def sync (env : Env) (b : ManagedBuffer) : Except Err ManagedBuffer :=
  if b.size = 0 then .ok b
  else if b.hostNewer then
    match createOnDevice env b with
    | .error e => .error e
    | .ok b1 =>
      match cudaMemcpy env.cudaMemcpy b1.gpu_ptr b1.cpu_ptr b1.size with
      | .error e => .error e
      | .ok none => .error .abortMemcpyH2D
      | .ok (some d) => .ok { b1 with gpu_ptr := some d, host_dirty := false, device_dirty := false }
  else if b.deviceNewer then
    match createOnHost env b with
    | .error e => .error e
    | .ok b1 =>
      match cudaMemcpy env.cudaMemcpy b1.cpu_ptr b1.gpu_ptr b1.size with
      | .error e => .error e
      | .ok none => .error .abortMemcpyD2H
      | .ok (some h) => .ok { b1 with cpu_ptr := some h, host_dirty := false, device_dirty := false }
  else .ok b

/-- The source `getHostPtr()`. -/
def getHostPtr (b : ManagedBuffer) : Option Block := b.cpu_ptr

/-- The source `getDevicePtr()`. -/
def getDevicePtr (b : ManagedBuffer) : Option Block := b.gpu_ptr

/-- The source `getSize()`. -/
def getSize (b : ManagedBuffer) : Nat := b.size

/-- The move constructor `ManagedBuffer(ManagedBuffer&& other)`: the constructed
buffer and `other` afterwards. -/
def moveConstruct (other : ManagedBuffer) : ManagedBuffer × ManagedBuffer :=
  ({ cpu_ptr := other.cpu_ptr, gpu_ptr := other.gpu_ptr, size := other.size,
     host_dirty := other.host_dirty, device_dirty := other.device_dirty },
   { cpu_ptr := none, gpu_ptr := none, size := 0, host_dirty := false, device_dirty := false })

/-- The move assignment `operator=(ManagedBuffer&& other)` between two distinct
objects (`this != &other`): `*this` afterwards, `other` afterwards, and the releases
made by the `freeAll()` of `*this`. -/
def moveAssign (self other : ManagedBuffer) : ManagedBuffer × ManagedBuffer × List Release :=
  ({ cpu_ptr := other.cpu_ptr, gpu_ptr := other.gpu_ptr, size := other.size,
     host_dirty := other.host_dirty, device_dirty := other.device_dirty },
   { cpu_ptr := none, gpu_ptr := none, size := 0, host_dirty := false, device_dirty := false },
   (freeAll self).2)

/-- Self move assignment (`this == &other`): the guard skips the body. -/
def moveAssignSelf (self : ManagedBuffer) : ManagedBuffer := self

/-- A write by the owner of the buffer into the host side through `getHostPtr()`,
followed by `markHost()`. -/
def hostWrite (off : Nat) (data : List Byte) (b : ManagedBuffer) : Except Err ManagedBuffer :=
  match b.cpu_ptr with
  | none => .error .nullAccess
  | some h =>
    match h.store off data with
    | .error e => .error e
    | .ok h1 => markHost { b with cpu_ptr := some h1 }

/-- A write into the device side through `getDevicePtr()`, followed by `markDevice()`. -/
def deviceWrite (off : Nat) (data : List Byte) (b : ManagedBuffer) : Except Err ManagedBuffer :=
  match b.gpu_ptr with
  | none => .error .nullAccess
  | some d =>
    match d.store off data with
    | .error e => .error e
    | .ok d1 => markDevice { b with gpu_ptr := some d1 }

/-- The calls a client can make on one buffer. -/
inductive Op where
  | allocateHost (bytes : Nat)
  | allocateDevice (bytes : Nat)
  | markHost
  | markDevice
  | sync
  | freeAll
  | hostWrite (off : Nat) (data : List Byte)
  | deviceWrite (off : Nat) (data : List Byte)

/-- One call on a buffer, in the environment `env`. -/
def step (env : Env) (op : Op) (b : ManagedBuffer) : Except Err ManagedBuffer :=
  match op with
  | .allocateHost n => allocateHost env n b
  | .allocateDevice n => allocateDevice env n b
  | .markHost => markHost b
  | .markDevice => markDevice b
  | .sync => sync env b
  | .freeAll => .ok (freeAll b).1
  | .hostWrite off data => hostWrite off data b
  | .deviceWrite off data => deviceWrite off data b

/-- A sequence of calls, each with the environment it runs in; it stops at the
first call that does not return. -/
def run : List (Env × Op) → ManagedBuffer → Except Err ManagedBuffer
  | [], b => .ok b
  | (env, op) :: rest, b =>
    match step env op b with
    | .error e => .error e
    | .ok b1 => run rest b1

/-- The states a buffer can be in: the default-constructed buffer, the result of a
call that returned on a reachable buffer, and both sides of a move construction or
move assignment between reachable buffers. -/
inductive Reachable : ManagedBuffer → Prop where
  | init : Reachable empty
  | call (env : Env) (op : Op) {b b1 : ManagedBuffer} :
      Reachable b → step env op b = .ok b1 → Reachable b1
  | moveConstructNew {o : ManagedBuffer} : Reachable o → Reachable (moveConstruct o).1
  | moveConstructOld {o : ManagedBuffer} : Reachable o → Reachable (moveConstruct o).2
  | moveAssignNew {s o : ManagedBuffer} : Reachable s → Reachable o → Reachable (moveAssign s o).1
  | moveAssignOld {s o : ManagedBuffer} : Reachable s → Reachable o → Reachable (moveAssign s o).2.1
  | moveAssignSelf {s : ManagedBuffer} : Reachable s → Reachable (moveAssignSelf s)

end ManagedBuffer

/-! ## `AltGPUVector<Datatype>` (vector.hpp) -/

/-- The two instantiations of the template parameter `Datatype`. -/
inductive Datatype where
  | int
  | double
deriving DecidableEq, Repr

/-- The value of `sizeof(Datatype)`. -/
def Datatype.sizeof : Datatype → Nat
  | .int => 4
  | .double => 8

/-- The values of the signed 64-bit type `R_xlen_t`. -/
def IsXlen (z : Int) : Prop := -2 ^ 63 ≤ z ∧ z < 2 ^ 63

instance (z : Int) : Decidable (IsXlen z) :=
  inferInstanceAs (Decidable (-2 ^ 63 ≤ z ∧ z < 2 ^ 63))

/-- The conversion `static_cast<size_t>(z)` of an `R_xlen_t`. -/
def toSizeT (z : Int) : Nat := (z % 2 ^ 64).toNat

/-- Reduction of an integer to the `R_xlen_t` value with the same low 64 bits
(two's complement arithmetic). -/
def wrapXlen (z : Int) : Int := (z + 2 ^ 63) % 2 ^ 64 - 2 ^ 63

/-- The fields of `AltGPUVector<Datatype>`; `buffer` is the `ManagedBuffer` owned
through the `unique_ptr`. -/
structure AltGPUVector where
  length_ : Int
  buffer : ManagedBuffer
deriving DecidableEq, Repr

/-- The external pointer cell behind an ALTREP handle: `R_ExternalPtrAddr` is the
instance it holds, `none` once `R_ClearExternalPtr` has run. -/
abbrev ExternalPtr := Option AltGPUVector

/-- An element of the vector as stored in memory: its `sizeof(Datatype)` bytes. -/
abbrev Elem := List Byte

/-- The call `std::memcpy(out, hptr + off, count)` from the host block into the
caller's array `out`, `off` being a byte offset. -/
def memcpyOut (out : List Byte) (hptr : Option Block) (off : Int) (count : Nat) :
    Except Err (List Byte) :=
  match hptr with
  | none => .error .nullAccess
  | some h =>
    if 0 ≤ off ∧ off.toNat + count ≤ h.bytes.length ∧ count ≤ out.length then
      .ok ((h.bytes.drop off.toNat).take count ++ out.drop count)
    else .error .outOfBounds

/-- The read `hptr[i]` of one element of `w` bytes. -/
def readElem (w : Nat) (hptr : Option Block) (i : Int) : Except Err Elem :=
  match hptr with
  | none => .error .nullAccess
  | some h => if 0 ≤ i then h.load (i.toNat * w) w else .error .outOfBounds

namespace AltGPUVector

/-- The private constructor `AltGPUVector(R_xlen_t n)`. -/
def new (T : Datatype) (env : Env) (n : Int) : Except Err AltGPUVector :=
  match ManagedBuffer.allocateHost env (toSizeT n * T.sizeof % 2 ^ 64) ManagedBuffer.empty with
  | .error e => .error e
  | .ok b => .ok { length_ := n, buffer := b }

/-- The source `Destruct(ext)`: the cell afterwards and the releases made by deleting
the instance (its `ManagedBuffer` destructor runs `freeAll()`). -/
def Destruct (ext : ExternalPtr) : ExternalPtr × List Release :=
  match ext with
  | some v => (none, (ManagedBuffer.freeAll v.buffer).2)
  | none => (ext, [])

/-- The source `Construct(n)`: the cell of the new handle. -/
def Construct (T : Datatype) (env : Env) (n : Int) : Except Err ExternalPtr :=
  match new T env n with
  | .error e => .error e
  | .ok v => .ok (some v)

/-- The source `AltGPUVector_Unwrap(x)`. -/
def AltGPUVector_Unwrap (x : ExternalPtr) : Except Err (Option AltGPUVector) :=
  match x with
  | none => .error .freed
  | some v => .ok (some v)

/-- The source `Get(x)`. -/
def Get (x : ExternalPtr) : Except Err AltGPUVector :=
  match AltGPUVector_Unwrap x with
  | .error e => .error e
  | .ok none => .error .getNull
  | .ok (some v) => .ok v

/-- The source `Length(x)`. -/
def Length (x : ExternalPtr) : Except Err Int :=
  match Get x with
  | .error e => .error e
  | .ok obj => .ok obj.length_

/-- The source `Inspect(x, ...)`: it prints the length and both pointers and returns `TRUE`. -/
def Inspect (x : ExternalPtr) : Except Err Bool :=
  match Get x with
  | .error e => .error e
  | .ok _ => .ok true

/-- The source `Dataptr_or_null(x)`: the pointer returned and the cell afterwards. -/
def Dataptr_or_null (env : Env) (x : ExternalPtr) : Except Err (Option Block × ExternalPtr) :=
  match Get x with
  | .error e => .error e
  | .ok obj =>
    match ManagedBuffer.sync env obj.buffer with
    | .error e => .error e
    | .ok b1 => .ok (b1.getHostPtr, some { obj with buffer := b1 })

/-- The source `Dataptr(x, writeable)`: the pointer returned and the cell afterwards. -/
def Dataptr (env : Env) (x : ExternalPtr) (writeable : Bool) :
    Except Err (Option Block × ExternalPtr) :=
  match Get x with
  | .error e => .error e
  | .ok obj =>
    match ManagedBuffer.sync env obj.buffer with
    | .error e => .error e
    | .ok b1 =>
      if writeable then
        match ManagedBuffer.markHost b1 with
        | .error e => .error e
        | .ok b2 => .ok (b2.getHostPtr, some { obj with buffer := b2 })
      else .ok (b1.getHostPtr, some { obj with buffer := b1 })

/-- The source `elt(x, i)`: the element returned and the cell afterwards. -/
def elt (T : Datatype) (env : Env) (x : ExternalPtr) (i : Int) : Except Err (Elem × ExternalPtr) :=
  match Get x with
  | .error e => .error e
  | .ok obj =>
    match ManagedBuffer.sync env obj.buffer with
    | .error e => .error e
    | .ok b1 =>
      match readElem T.sizeof b1.getHostPtr i with
      | .error e => .error e
      | .ok val => .ok (val, some { obj with buffer := b1 })

/-- The value of `ncopy` in `Get_region`: `remain = length_ - start`, then
`remain < size ? remain : size`. -/
def regionNcopy (length_ start size : Int) : Int :=
  let remain := wrapXlen (length_ - start)
  if remain < size then remain else size

/-- The source `Get_region(x, start, size, out)`: the count returned, the array `out`
afterwards and the cell afterwards. -/
def Get_region (T : Datatype) (env : Env) (x : ExternalPtr) (start size : Int) (out : List Byte) :
    Except Err (Int × List Byte × ExternalPtr) :=
  match Get x with
  | .error e => .error e
  | .ok obj =>
    match ManagedBuffer.sync env obj.buffer with
    | .error e => .error e
    | .ok b1 =>
      let ncopy := regionNcopy obj.length_ start size
      match memcpyOut out b1.getHostPtr (start * T.sizeof) (toSizeT ncopy * T.sizeof % 2 ^ 64) with
      | .error e => .error e
      | .ok out1 => .ok (ncopy, out1, some { obj with buffer := b1 })

/-- A write by a client of `data` at byte offset `off` through the host pointer that
`Dataptr` handed out. -/
def hostStore (x : ExternalPtr) (off : Nat) (data : List Byte) : Except Err ExternalPtr :=
  match x with
  | none => .error .freed
  | some obj =>
    match obj.buffer.cpu_ptr with
    | none => .error .nullAccess
    | some h =>
      match h.store off data with
      | .error e => .error e
      | .ok h1 => .ok (some { obj with buffer := { obj.buffer with cpu_ptr := some h1 } })

/-- The host contents of a live handle, as bytes. -/
def hostBytes (x : ExternalPtr) : Option (List Byte) :=
  match x with
  | none => none
  | some obj => obj.buffer.cpu_ptr.map Block.bytes

/-- The handles of live vectors: the result of `Construct` on an `R_xlen_t`, and what
the accessors and client writes through the host pointer make of it. -/
inductive Live (T : Datatype) : ExternalPtr → Prop where
  | construct (env : Env) (n : Int) {x : ExternalPtr} :
      IsXlen n → Construct T env n = .ok x → Live T x
  | dataptrOrNull (env : Env) {x x1 : ExternalPtr} {p : Option Block} :
      Live T x → Dataptr_or_null env x = .ok (p, x1) → Live T x1
  | dataptr (env : Env) (writeable : Bool) {x x1 : ExternalPtr} {p : Option Block} :
      Live T x → Dataptr env x writeable = .ok (p, x1) → Live T x1
  | elt (env : Env) (i : Int) {x x1 : ExternalPtr} {val : Elem} :
      Live T x → elt T env x i = .ok (val, x1) → Live T x1
  | getRegion (env : Env) (start size : Int) (out : List Byte) {x x1 : ExternalPtr}
      {n : Int} {out1 : List Byte} :
      Live T x → Get_region T env x start size out = .ok (n, out1, x1) → Live T x1
  | hostStore (off : Nat) (data : List Byte) {x x1 : ExternalPtr} :
      Live T x → hostStore x off data = .ok x1 → Live T x1

end AltGPUVector

/-! ## Invariants and observations -/

namespace ManagedBuffer

/-- A side is either absent, or a block of exactly `size` bytes, or a block of no
bytes (one obtained while `size` was still `0`). -/
def CapOk (size : Nat) (p : Option Block) : Prop :=
  ∀ blk, p = some blk → blk.bytes.length = size ∨ blk.bytes.length = 0

/-- The invariant carried by every reachable buffer. -/
structure Inv (b : ManagedBuffer) : Prop where
  excl : ¬ (b.host_dirty = true ∧ b.device_dirty = true)
  hostCap : CapOk b.size b.cpu_ptr
  devCap : CapOk b.size b.gpu_ptr
  coh : b.host_dirty = false → b.device_dirty = false →
    ∀ h d, b.cpu_ptr = some h → b.gpu_ptr = some d → h.bytes = d.bytes

/-- The logical contents of the host side: the `size` bytes the buffer stands for. -/
def hostContents (b : ManagedBuffer) : Option (List Byte) :=
  b.cpu_ptr.map (fun h => h.bytes.take b.size)

/-- The logical contents of the device side. -/
def deviceContents (b : ManagedBuffer) : Option (List Byte) :=
  b.gpu_ptr.map (fun d => d.bytes.take b.size)

/-- The shape of the buffer of a live vector: the device side is not the newer one,
the host side is a block of `size` bytes, and the device side, if present, too. -/
def HostSide (b : ManagedBuffer) : Prop :=
  b.device_dirty = false ∧ (∃ h, b.cpu_ptr = some h ∧ h.bytes.length = b.size) ∧
    (∀ d, b.gpu_ptr = some d → d.bytes.length = b.size)

end ManagedBuffer

/-- The invariant carried by every live handle: the cell holds an instance whose
length is an `R_xlen_t`, whose buffer has the size fixed by the constructor, and
whose buffer has the shape `HostSide`. -/
def VInv (T : Datatype) (x : ExternalPtr) : Prop :=
  ∃ v, x = some v ∧ IsXlen v.length_ ∧
    v.buffer.size = toSizeT v.length_ * T.sizeof % 2 ^ 64 ∧ v.buffer.HostSide

/-- The object representation of a 32-bit `int` (little endian, two's complement). -/
def int32LE (z : Int) : Elem :=
  let u := (z % 2 ^ 32).toNat
  [u % 256, u / 256 % 256, u / 65536 % 256, u / 16777216 % 256]

/-- An environment in which every allocation and every copy succeeds; new blocks are
zero-filled. -/
def envOk : Env :=
  { malloc := some { addr := 4096, junk := fun _ => 0 }
    cudaMalloc := some { addr := 8192, junk := fun _ => 0 }
    cudaMemcpy := true }

/-- The calls of the cross-side scenario before its `sync()`: the host side is
allocated and written with the `int` values 10, 20, 30, then the device side is
allocated with the same size and written with 99, 20, 30. -/
def crossSideOps : List (Env × ManagedBuffer.Op) :=
  [(envOk, .allocateHost 12),
   (envOk, .hostWrite 0 (int32LE 10 ++ int32LE 20 ++ int32LE 30)),
   (envOk, .allocateDevice 12),
   (envOk, .deviceWrite 0 (int32LE 99 ++ int32LE 20 ++ int32LE 30))]

/-- The buffer of the cross-side scenario right before its `sync()`. -/
def crossSideState : ManagedBuffer :=
  { cpu_ptr := some { addr := 4096, bytes := [10, 0, 0, 0, 20, 0, 0, 0, 30, 0, 0, 0] }
    gpu_ptr := some { addr := 8192, bytes := [99, 0, 0, 0, 20, 0, 0, 0, 30, 0, 0, 0] }
    size := 12
    host_dirty := false
    device_dirty := true }

/-- The buffer of the cross-side scenario after its `sync()`. -/
def crossSideSynced : ManagedBuffer :=
  { cpu_ptr := some { addr := 4096, bytes := [99, 0, 0, 0, 20, 0, 0, 0, 30, 0, 0, 0] }
    gpu_ptr := some { addr := 8192, bytes := [99, 0, 0, 0, 20, 0, 0, 0, 30, 0, 0, 0] }
    size := 12
    host_dirty := false
    device_dirty := false }

/-- The handle of an `int` vector of length 3 right after `Construct(3)` in `envOk`. -/
def intVec3New : ExternalPtr :=
  some { length_ := 3
         buffer := { cpu_ptr := some { addr := 4096, bytes := List.replicate 12 0 }
                     size := 12
                     host_dirty := true } }

/-- The handle of an `int` vector of length 3 whose host side a client has filled
with the values 10, 20, 30. -/
def intVec3 : ExternalPtr :=
  some { length_ := 3
         buffer := { cpu_ptr := some { addr := 4096, bytes := [10, 0, 0, 0, 20, 0, 0, 0, 30, 0, 0, 0] }
                     size := 12
                     host_dirty := true } }

/-- The handle of a `double` vector of length 0 right after `Construct(0)` in `envOk`. -/
def doubleVec0 : ExternalPtr :=
  some { length_ := 0
         buffer := { cpu_ptr := some { addr := 4096, bytes := [] }
                     size := 0
                     host_dirty := true } }

/-- The `w` bytes of the unsigned value `u`, least significant byte first. -/
def bytesLE (w u : Nat) : Elem := (List.range w).map fun k => u / 256 ^ k % 256

/-- The object representations of the `double` values 1.0, 2.0, 3.0, 4.0, 5.0 (their
IEEE 754 bit patterns, little endian). -/
def roundTripValues : List Elem :=
  [bytesLE 8 0x3FF0000000000000, bytesLE 8 0x4000000000000000, bytesLE 8 0x4008000000000000,
   bytesLE 8 0x4010000000000000, bytesLE 8 0x4014000000000000]

/-- The handle of a `double` vector of length 5 right after `Construct(5)` in `envOk`. -/
def doubleVec5New : ExternalPtr :=
  some { length_ := 5
         buffer := { cpu_ptr := some { addr := 4096, bytes := List.replicate 40 0 }
                     size := 40
                     host_dirty := true } }

/-- The handle of the `double` vector of length 5 after the client has written
`roundTripValues` into its host side. -/
def doubleVec5 : ExternalPtr :=
  some { length_ := 5
         buffer := { cpu_ptr := some { addr := 4096, bytes := roundTripValues.flatten }
                     size := 40
                     host_dirty := true } }

/-! ## Definitions for the contracts of the single operations -/

namespace ManagedBuffer

/-- Move assignment between the objects stored at the addresses `self` and `other` of
a memory of buffers: the guard `this != &other` compares the two addresses. -/
def moveAssignAt (mem : Nat → ManagedBuffer) (self other : Nat) :
    (Nat → ManagedBuffer) × List Release :=
  if self ≠ other then
    (Function.update (Function.update mem self (moveAssign (mem self) (mem other)).1)
        other (moveAssign (mem self) (mem other)).2.1,
      (moveAssign (mem self) (mem other)).2.2)
  else (mem, [])

/-- The blocks a buffer owns. -/
def owned (b : ManagedBuffer) : List Block := b.cpu_ptr.toList ++ b.gpu_ptr.toList

/-- The six calls `allocateHost`, `allocateDevice`, `markHost`, `markDevice`, `sync`
and `freeAll` (not the client writes). -/
def Op.basic : Op → Prop
  | .hostWrite _ _ => False
  | .deviceWrite _ _ => False
  | _ => True

/-- The allocation calls of `op` ask for at least one byte. -/
def Op.nonzeroRequest : Op → Prop
  | .allocateHost n => n ≠ 0
  | .allocateDevice n => n ≠ 0
  | _ => True

/-- A call of `markHost` (`markDevice`) is made on a buffer whose host (device) side is
allocated; every other call is unrestricted. -/
def Op.marksExisting : Op → ManagedBuffer → Prop
  | .markHost, b => b.hasHost = true
  | .markDevice, b => b.hasDevice = true
  | _, _ => True

/-- The states reached from the default-constructed buffer by returning calls that
each satisfy the side condition `P` (on the call and the state it is made in). -/
inductive ReachableBy (P : Op → ManagedBuffer → Prop) : ManagedBuffer → Prop where
  | init : ReachableBy P empty
  | call (env : Env) (op : Op) {b b1 : ManagedBuffer} :
      ReachableBy P b → P op b → step env op b = .ok b1 → ReachableBy P b1

/-- Every block of the buffer has exactly `size` bytes, and a buffer of size 0 has no
block. -/
def Exact (b : ManagedBuffer) : Prop :=
  (∀ h, b.cpu_ptr = some h → h.bytes.length = b.size) ∧
  (∀ d, b.gpu_ptr = some d → d.bytes.length = b.size) ∧
  (b.size = 0 → b.cpu_ptr = none ∧ b.gpu_ptr = none)

/-- The side marked dirty is allocated. -/
def DirtyExists (b : ManagedBuffer) : Prop :=
  (b.host_dirty = true → b.hasHost = true) ∧ (b.device_dirty = true → b.hasDevice = true)

end ManagedBuffer

namespace AltGPUVector

/-- The accessor calls that the ALTREP methods make on a handle. -/
inductive Access where
  | length
  | inspect
  | dataptrOrNull
  | dataptr (writeable : Bool)
  | elt (i : Int)
  | getRegion (start size : Int) (out : List Byte)

/-- The cell of the handle after one accessor call that returns. -/
def access (T : Datatype) (env : Env) (a : Access) (x : ExternalPtr) : Except Err ExternalPtr :=
  match a with
  | .length => (Length x).map fun _ => x
  | .inspect => (Inspect x).map fun _ => x
  | .dataptrOrNull => (Dataptr_or_null env x).map fun r => r.2
  | .dataptr w => (Dataptr env x w).map fun r => r.2
  | .elt i => (elt T env x i).map fun r => r.2
  | .getRegion start size out => (Get_region T env x start size out).map fun r => r.2.2

/-- A sequence of accessor calls, each in its environment; it stops at the first call
that does not return. -/
def accessAll (T : Datatype) : List (Env × Access) → ExternalPtr → Except Err ExternalPtr
  | [], x => .ok x
  | (env, a) :: rest, x =>
    match access T env a x with
    | .error e => .error e
    | .ok x1 => accessAll T rest x1

end AltGPUVector

/-- The buffer after `allocateHost(0)` in `envOk`: size 0 with a host block. -/
def zeroHostState : ManagedBuffer :=
  { cpu_ptr := some { addr := 4096, bytes := [] }, size := 0, host_dirty := true }

/-- The buffer after `allocateHost(0)` and `allocateDevice(5)` in `envOk`. -/
def zeroThenFiveState : ManagedBuffer :=
  { cpu_ptr := some { addr := 4096, bytes := [] }
    gpu_ptr := some { addr := 8192, bytes := [0, 0, 0, 0, 0] }
    size := 5
    host_dirty := false
    device_dirty := true }

/-- The buffer after `allocateDevice(5)` and `markHost()` in `envOk`. -/
def deviceOnlyMarkedHost : ManagedBuffer :=
  { gpu_ptr := some { addr := 8192, bytes := [0, 0, 0, 0, 0] }
    size := 5
    host_dirty := true
    device_dirty := false }

/-- The handle of the `double` vector of length 5 after the `sync()` of its first
`Dataptr(x, FALSE)` in `envOk`. -/
def doubleVec5Synced : ExternalPtr :=
  some { length_ := 5
         buffer := { cpu_ptr := some { addr := 4096, bytes := List.replicate 40 0 }
                     gpu_ptr := some { addr := 8192, bytes := List.replicate 40 0 }
                     size := 40
                     host_dirty := false
                     device_dirty := false } }

/-- The handle that `Construct(2^61)` returns for `double` in `envOk`: the byte count
`2^61 * 8` is `0` modulo `2^64`. -/
def doubleVecWrapped : ExternalPtr :=
  some { length_ := 2 ^ 61
         buffer := { cpu_ptr := some { addr := 4096, bytes := [] }
                     size := 0
                     host_dirty := true } }

/-- Four accessor calls on an `int` vector: `Dataptr(x, TRUE)`, `elt(x, 1)`,
`Get_region(x, 0, 2, out)` and `Length(x)`, all in `envOk`. -/
def sampleCalls : List (Env × AltGPUVector.Access) :=
  [(envOk, .dataptr true), (envOk, .elt 1), (envOk, .getRegion 0 2 (List.replicate 8 7)),
   (envOk, .length)]

/-- The handle `intVec3New` after the calls `sampleCalls`. -/
def intVec3Accessed : ExternalPtr :=
  some { length_ := 3
         buffer := { cpu_ptr := some { addr := 4096, bytes := List.replicate 12 0 }
                     gpu_ptr := some { addr := 8192, bytes := List.replicate 12 0 }
                     size := 12
                     host_dirty := false
                     device_dirty := false } }

/-- What one call does to "the buffer has been sized by an earlier successful
allocation that has not been released": every `allocateHost`/`allocateDevice` call that
returned sizes the buffer, `freeAll` releases it, the other calls leave it as it was. -/
def ManagedBuffer.Op.sizes (acc : Bool) : ManagedBuffer.Op → Bool
  | .allocateHost _ => true
  | .allocateDevice _ => true
  | .freeAll => false
  | _ => acc

/-- After the returning calls `ops` on the empty buffer, the buffer has been sized by
an earlier successful `allocateHost`/`allocateDevice` call that has not been released. -/
def sizedBy (ops : List (Env × ManagedBuffer.Op)) : Bool :=
  ops.foldl (fun acc eo => eo.2.sizes acc) false

/-- The same, counting only allocation calls that asked for at least one byte. -/
def ManagedBuffer.Op.sizesNonzero (acc : Bool) : ManagedBuffer.Op → Bool
  | .allocateHost n => decide (n ≠ 0)
  | .allocateDevice n => decide (n ≠ 0)
  | .freeAll => false
  | _ => acc

/-- After the returning calls `ops` on the empty buffer, the buffer has been sized to a
byte count other than 0 by an earlier successful `allocateHost`/`allocateDevice` call
that has not been released. -/
def sizedNonzeroBy (ops : List (Env × ManagedBuffer.Op)) : Bool :=
  ops.foldl (fun acc eo => eo.2.sizesNonzero acc) false

/-- The buffer after `allocateHost(0)` and `allocateHost(8)` in `envOk`: size 8 over
the block of 0 bytes. -/
def zeroThenEightState : ManagedBuffer :=
  { cpu_ptr := some { addr := 4096, bytes := [] }, size := 8, host_dirty := true }

/-! # Theorems -/

namespace ManagedBuffer

theorem capOk_none (n : Nat) : CapOk n none := by
  intro blk h; cases h

theorem capOk_fresh (f : Fresh) (n : Nat) : CapOk n (some (f.block n)) := by
  intro blk h
  cases h
  left
  simp [Fresh.block]

theorem capOk_zero_resize {p : Option Block} (n : Nat) (h : CapOk 0 p) : CapOk n p := by
  intro blk hb
  right
  rcases h blk hb with h1 | h1 <;> exact h1

theorem store_length {blk blk1 : Block} {off : Nat} {data : List Byte}
    (h : blk.store off data = .ok blk1) : blk1.bytes.length = blk.bytes.length := by
  unfold Block.store at h
  split at h
  · cases h
    simp
    omega
  · cases h

theorem capOk_store {n : Nat} {blk blk1 : Block} {off : Nat} {data : List Byte}
    (h : blk.store off data = .ok blk1) (hc : CapOk n (some blk)) : CapOk n (some blk1) := by
  intro b hb
  cases hb
  rw [store_length h]
  exact hc blk rfl

theorem inv_empty : Inv empty :=
  { excl := by simp [empty]
    hostCap := capOk_none _
    devCap := capOk_none _
    coh := by intro _ _ h d hh; cases hh }

theorem inv_createOnHost {env : Env} {b b1 : ManagedBuffer}
    (h : createOnHost env b = .ok b1) :
    b1.gpu_ptr = b.gpu_ptr ∧ b1.size = b.size ∧ b1.host_dirty = b.host_dirty ∧
    b1.device_dirty = b.device_dirty ∧
    ((b1.cpu_ptr = b.cpu_ptr ∧ b.cpu_ptr ≠ none) ∨
      (b.cpu_ptr = none ∧ ∃ f, env.malloc = some f ∧ b1.cpu_ptr = some (f.block b.size))) := by
  unfold createOnHost at h
  split at h
  · cases h
    simp_all
  · split at h
    · cases h
    · cases h
      simp_all

theorem inv_createOnDevice {env : Env} {b b1 : ManagedBuffer}
    (h : createOnDevice env b = .ok b1) :
    b1.cpu_ptr = b.cpu_ptr ∧ b1.size = b.size ∧ b1.host_dirty = b.host_dirty ∧
    b1.device_dirty = b.device_dirty ∧
    ((b1.gpu_ptr = b.gpu_ptr ∧ b.gpu_ptr ≠ none) ∨
      (b.gpu_ptr = none ∧ ∃ f, env.cudaMalloc = some f ∧ b1.gpu_ptr = some (f.block b.size))) := by
  unfold createOnDevice at h
  split at h
  · cases h
    simp_all
  · split at h
    · cases h
    · cases h
      simp_all

theorem capOk_createOnHost {env : Env} {b b1 : ManagedBuffer}
    (h : createOnHost env b = .ok b1) (hc : CapOk b.size b.cpu_ptr) :
    CapOk b1.size b1.cpu_ptr := by
  obtain ⟨_, hs, _, _, hp | ⟨_, f, _, hp⟩⟩ := inv_createOnHost h
  · rw [hs, hp.1]; exact hc
  · rw [hs, hp]; exact capOk_fresh f _

theorem capOk_createOnDevice {env : Env} {b b1 : ManagedBuffer}
    (h : createOnDevice env b = .ok b1) (hc : CapOk b.size b.gpu_ptr) :
    CapOk b1.size b1.gpu_ptr := by
  obtain ⟨_, hs, _, _, hp | ⟨_, f, _, hp⟩⟩ := inv_createOnDevice h
  · rw [hs, hp.1]; exact hc
  · rw [hs, hp]; exact capOk_fresh f _

/-- What a returning `cudaMemcpy` of `n` bytes does to blocks that satisfy `CapOk n`:
both have exactly `n` bytes and the destination receives the bytes of the source. -/
theorem cudaMemcpy_ok {success : Bool} {dst src : Option Block} {n : Nat} {r : Block}
    (hd : CapOk n dst) (hs : CapOk n src)
    (h : cudaMemcpy success dst src n = .ok (some r)) :
    ∃ d s, dst = some d ∧ src = some s ∧ d.bytes.length = n ∧ s.bytes.length = n ∧
      r = { d with bytes := s.bytes } := by
  unfold cudaMemcpy at h
  split at h
  · rename_i d s
    split at h
    · rename_i hle
      split at h
      · have hdl : d.bytes.length = n := by
          rcases hd d rfl with h1 | h1
          · exact h1
          · omega
        have hsl : s.bytes.length = n := by
          rcases hs s rfl with h1 | h1
          · exact h1
          · omega
        refine ⟨d, s, rfl, rfl, hdl, hsl, ?_⟩
        simp only [Except.ok.injEq, Option.some.injEq] at h
        rw [← h]
        have h1 : List.take n s.bytes = s.bytes := List.take_of_length_le (by omega)
        have h2 : List.drop n d.bytes = [] := List.drop_of_length_le (by omega)
        rw [h1, h2, List.append_nil]
      · cases h
    · cases h
  · cases h

theorem inv_allocateHost {env : Env} {n : Nat} {b b1 : ManagedBuffer}
    (hi : Inv b) (h : allocateHost env n b = .ok b1) : Inv b1 := by
  unfold allocateHost at h
  split at h
  · cases h
  · rename_i hz
    have hz0 : b.size = 0 := by simpa using hz
    split at h
    · cases h
    · rename_i b2 hc
      cases h
      have hh : CapOk n b.cpu_ptr := capOk_zero_resize n (hz0 ▸ hi.hostCap)
      have hg : CapOk n b.gpu_ptr := capOk_zero_resize n (hz0 ▸ hi.devCap)
      have h2 := capOk_createOnHost hc hh
      obtain ⟨hg2, hs2, _, _, _⟩ := inv_createOnHost hc
      simp only at hs2 hg2 h2
      refine ⟨by simp, ?_, ?_, ?_⟩
      · simpa using h2
      · simp only [hg2, hs2]; exact hg
      · intro hd; simp at hd

theorem inv_allocateDevice {env : Env} {n : Nat} {b b1 : ManagedBuffer}
    (hi : Inv b) (h : allocateDevice env n b = .ok b1) : Inv b1 := by
  unfold allocateDevice at h
  split at h
  · cases h
  · rename_i hz
    split at h
    · cases h
    · rename_i b2 hc
      cases h
      have hpre : CapOk (if b.size = 0 then { b with size := n } else b).size b.cpu_ptr ∧
          CapOk (if b.size = 0 then { b with size := n } else b).size b.gpu_ptr := by
        by_cases hz0 : b.size = 0
        · simp only [hz0, if_true]
          exact ⟨capOk_zero_resize n (hz0 ▸ hi.hostCap), capOk_zero_resize n (hz0 ▸ hi.devCap)⟩
        · simp only [hz0, if_false]
          exact ⟨hi.hostCap, hi.devCap⟩
      have hptrs : (if b.size = 0 then { b with size := n } else b).cpu_ptr = b.cpu_ptr ∧
          (if b.size = 0 then { b with size := n } else b).gpu_ptr = b.gpu_ptr := by
        by_cases hz0 : b.size = 0 <;> simp [hz0]
      have h2 := capOk_createOnDevice hc (by rw [hptrs.2]; exact hpre.2)
      obtain ⟨hg2, hs2, _, _, _⟩ := inv_createOnDevice hc
      refine ⟨by simp, ?_, ?_, ?_⟩
      · simp only [hg2, hs2, hptrs.1]; exact hpre.1
      · simpa using h2
      · intro _ hd; simp at hd

theorem inv_markHost_of_cap {b b1 : ManagedBuffer} (hh : CapOk b.size b.cpu_ptr)
    (hg : CapOk b.size b.gpu_ptr) (h : markHost b = .ok b1) : Inv b1 := by
  unfold markHost at h
  split at h
  · cases h
  · cases h
    exact ⟨by simp, hh, hg, by intro hd; simp at hd⟩

theorem inv_markDevice_of_cap {b b1 : ManagedBuffer} (hh : CapOk b.size b.cpu_ptr)
    (hg : CapOk b.size b.gpu_ptr) (h : markDevice b = .ok b1) : Inv b1 := by
  unfold markDevice at h
  split at h
  · cases h
  · cases h
    exact ⟨by simp, hh, hg, by intro _ hd; simp at hd⟩

theorem inv_markHost {b b1 : ManagedBuffer} (hi : Inv b) (h : markHost b = .ok b1) : Inv b1 :=
  inv_markHost_of_cap hi.hostCap hi.devCap h

theorem inv_markDevice {b b1 : ManagedBuffer} (hi : Inv b) (h : markDevice b = .ok b1) :
    Inv b1 :=
  inv_markDevice_of_cap hi.hostCap hi.devCap h

theorem inv_freeAll (b : ManagedBuffer) : Inv (freeAll b).1 :=
  { excl := by simp [freeAll]
    hostCap := capOk_none _
    devCap := capOk_none _
    coh := by intro _ _ h d hh; cases hh }

theorem inv_sync {env : Env} {b b1 : ManagedBuffer} (hi : Inv b) (h : sync env b = .ok b1) :
    Inv b1 := by
  unfold sync at h
  split at h
  · cases h; exact hi
  · split at h
    · split at h
      · cases h
      · rename_i b2 hc
        obtain ⟨hcpu, hs2, _, _, _⟩ := inv_createOnDevice hc
        have hg2 := capOk_createOnDevice hc hi.devCap
        have hh2 : CapOk b2.size b2.cpu_ptr := by rw [hcpu, hs2]; exact hi.hostCap
        split at h
        · cases h
        · cases h
        · rename_i d hm
          cases h
          obtain ⟨d0, s0, hd0, hs0, hdl, hsl, rfl⟩ := cudaMemcpy_ok hg2 hh2 hm
          refine ⟨by simp, hh2, ?_, ?_⟩
          · intro blk hb
            simp only [Option.some.injEq] at hb
            subst hb
            left
            exact hsl
          · intro _ _ h0 d1 hh hd
            simp only [Option.some.injEq] at hd
            subst hd
            simp only at hh
            rw [hs0] at hh
            cases hh
            rfl
    · split at h
      · split at h
        · cases h
        · rename_i b2 hc
          obtain ⟨hgpu, hs2, _, _, _⟩ := inv_createOnHost hc
          have hh2 := capOk_createOnHost hc hi.hostCap
          have hg2 : CapOk b2.size b2.gpu_ptr := by rw [hgpu, hs2]; exact hi.devCap
          split at h
          · cases h
          · cases h
          · rename_i d hm
            cases h
            obtain ⟨d0, s0, hd0, hs0, hdl, hsl, rfl⟩ := cudaMemcpy_ok hh2 hg2 hm
            refine ⟨by simp, ?_, hg2, ?_⟩
            · intro blk hb
              simp only [Option.some.injEq] at hb
              subst hb
              left
              exact hsl
            · intro _ _ h0 d1 hh hd
              simp only [Option.some.injEq] at hh
              subst hh
              simp only at hd
              rw [hs0] at hd
              cases hd
              rfl
      · cases h
        exact hi

theorem inv_hostWrite {off : Nat} {data : List Byte} {b b1 : ManagedBuffer}
    (hi : Inv b) (h : hostWrite off data b = .ok b1) : Inv b1 := by
  unfold hostWrite at h
  split at h
  · cases h
  · rename_i h0 hp
    split at h
    · cases h
    · rename_i h1 hst
      exact inv_markHost_of_cap (b := { b with cpu_ptr := some h1 })
        (capOk_store hst (hp ▸ hi.hostCap)) hi.devCap h

theorem inv_deviceWrite {off : Nat} {data : List Byte} {b b1 : ManagedBuffer}
    (hi : Inv b) (h : deviceWrite off data b = .ok b1) : Inv b1 := by
  unfold deviceWrite at h
  split at h
  · cases h
  · rename_i h0 hp
    split at h
    · cases h
    · rename_i h1 hst
      exact inv_markDevice_of_cap (b := { b with gpu_ptr := some h1 })
        hi.hostCap (capOk_store hst (hp ▸ hi.devCap)) h

theorem inv_step {env : Env} {op : Op} {b b1 : ManagedBuffer}
    (hi : Inv b) (h : step env op b = .ok b1) : Inv b1 := by
  cases op with
  | allocateHost n => exact inv_allocateHost hi h
  | allocateDevice n => exact inv_allocateDevice hi h
  | markHost => exact inv_markHost hi h
  | markDevice => exact inv_markDevice hi h
  | sync => exact inv_sync hi h
  | freeAll =>
    simp only [step, Except.ok.injEq] at h
    rw [← h]
    exact inv_freeAll b
  | hostWrite off data => exact inv_hostWrite hi h
  | deviceWrite off data => exact inv_deviceWrite hi h

theorem inv_of_reachable {b : ManagedBuffer} (h : Reachable b) : Inv b := by
  induction h with
  | init => exact inv_empty
  | call env op _ hs ih => exact inv_step ih hs
  | moveConstructNew _ ih => exact ⟨ih.excl, ih.hostCap, ih.devCap, ih.coh⟩
  | moveConstructOld _ _ => exact inv_empty
  | moveAssignNew _ _ _ ih => exact ⟨ih.excl, ih.hostCap, ih.devCap, ih.coh⟩
  | moveAssignOld _ _ _ _ => exact inv_empty
  | moveAssignSelf _ ih => exact ih

theorem reachable_of_run {ops : List (Env × Op)} {b b1 : ManagedBuffer}
    (hb : Reachable b) (h : run ops b = .ok b1) : Reachable b1 := by
  induction ops generalizing b with
  | nil =>
    simp only [run, Except.ok.injEq] at h
    exact h ▸ hb
  | cons eo rest ih =>
    obtain ⟨env, op⟩ := eo
    simp only [run] at h
    split at h
    · cases h
    · rename_i b2 hs
      exact ih (Reachable.call env op hb hs) h

/-- A returning `sync()` on a buffer of non-zero size whose flags are not both set
leaves both flags clear. -/
theorem sync_clears {env : Env} {b b1 : ManagedBuffer} (hz : b.size ≠ 0)
    (hx : ¬ (b.host_dirty = true ∧ b.device_dirty = true)) (h : sync env b = .ok b1) :
    b1.host_dirty = false ∧ b1.device_dirty = false := by
  unfold sync at h
  rw [if_neg hz] at h
  split at h
  · split at h
    · cases h
    · split at h
      · cases h
      · cases h
      · cases h; simp
  · rename_i hn
    split at h
    · split at h
      · cases h
      · split at h
        · cases h
        · cases h
        · cases h; simp
    · rename_i hd
      cases h
      simp only [hostNewer, deviceNewer, Bool.and_eq_true, Bool.not_eq_true',
        not_and, Bool.not_eq_false] at hn hd
      cases hh : b.host_dirty <;> cases hdd : b.device_dirty <;> simp_all

theorem cudaMemcpy_some {success : Bool} {dst src : Option Block} {n : Nat} {r : Block}
    (h : cudaMemcpy success dst src n = .ok (some r)) :
    ∃ d s, dst = some d ∧ src = some s ∧ n ≤ s.bytes.length ∧ n ≤ d.bytes.length ∧
      success = true ∧ r = { d with bytes := s.bytes.take n ++ d.bytes.drop n } := by
  unfold cudaMemcpy at h
  split at h
  · rename_i d s
    split at h
    · rename_i hle
      split at h
      · rename_i hs
        simp only [Except.ok.injEq, Option.some.injEq] at h
        exact ⟨d, s, rfl, rfl, hle.1, hle.2, hs, h.symm⟩
      · cases h
    · cases h
  · cases h

theorem take_copied (n : Nat) (s d : List Byte) (h : n ≤ s.length) :
    (s.take n ++ d.drop n).take n = s.take n := by
  rw [List.take_append_of_le_length (by simp [h]), List.take_take, Nat.min_self]

/-- What a returning `sync()` does when the host is the newer side. -/
theorem sync_hostNewer_post {env : Env} {b b1 : ManagedBuffer} (hz : b.size ≠ 0)
    (hn : b.hostNewer = true) (h : sync env b = .ok b1) :
    ∃ c, hostContents b = some c ∧ deviceContents b1 = some c ∧ b1.cpu_ptr = b.cpu_ptr ∧
      b1.size = b.size ∧ b1.host_dirty = false ∧ b1.device_dirty = false := by
  unfold sync at h
  rw [if_neg hz, if_pos hn] at h
  split at h
  · cases h
  · rename_i b2 hc
    obtain ⟨hcpu, hs2, _, _, _⟩ := inv_createOnDevice hc
    split at h
    · cases h
    · cases h
    · rename_i r hm
      cases h
      obtain ⟨d0, s0, hd0, hs0, hle, _, _, rfl⟩ := cudaMemcpy_some hm
      refine ⟨s0.bytes.take b.size, ?_, ?_, hcpu, hs2, rfl, rfl⟩
      · simp [hostContents, ← hcpu, hs0]
      · simp only [deviceContents, Option.map_some', Option.some.injEq]
        rw [hs2] at hle ⊢
        exact take_copied _ _ _ hle

/-- What a returning `sync()` does when the device is the newer side. -/
theorem sync_deviceNewer_post {env : Env} {b b1 : ManagedBuffer} (hz : b.size ≠ 0)
    (hn : b.deviceNewer = true) (h : sync env b = .ok b1) :
    ∃ c, deviceContents b = some c ∧ hostContents b1 = some c ∧ b1.gpu_ptr = b.gpu_ptr ∧
      b1.size = b.size ∧ b1.host_dirty = false ∧ b1.device_dirty = false := by
  have hnh : b.hostNewer = false := by
    simp only [hostNewer, deviceNewer, Bool.and_eq_true, Bool.not_eq_true'] at hn ⊢
    simp [hn.1, hn.2]
  unfold sync at h
  rw [if_neg hz, hnh, if_neg (by simp), if_pos hn] at h
  split at h
  · cases h
  · rename_i b2 hc
    obtain ⟨hgpu, hs2, _, _, _⟩ := inv_createOnHost hc
    split at h
    · cases h
    · cases h
    · rename_i r hm
      cases h
      obtain ⟨d0, s0, hd0, hs0, hle, _, _, rfl⟩ := cudaMemcpy_some hm
      refine ⟨s0.bytes.take b.size, ?_, ?_, hgpu, hs2, rfl, rfl⟩
      · simp [deviceContents, ← hgpu, hs0]
      · simp only [hostContents, Option.map_some', Option.some.injEq]
        rw [hs2] at hle ⊢
        exact take_copied _ _ _ hle

/-- When the source side holds `size` bytes, the destination side is absent or holds
`size` bytes, and the runtime does not fail, `sync()` returns (host newer). -/
theorem sync_hostNewer_returns {env : Env} {b : ManagedBuffer} (hz : b.size ≠ 0)
    (hn : b.hostNewer = true) (hsrc : ∃ h, b.cpu_ptr = some h ∧ b.size ≤ h.bytes.length)
    (hdst : ∀ d, b.gpu_ptr = some d → b.size ≤ d.bytes.length)
    (ha : b.gpu_ptr = none → env.cudaMalloc.isSome = true) (hc : env.cudaMemcpy = true) :
    ∃ b1, sync env b = .ok b1 := by
  obtain ⟨h, hh, hle⟩ := hsrc
  unfold sync
  rw [if_neg hz, if_pos hn]
  cases hg : b.gpu_ptr with
  | some d =>
    have := hdst d hg
    simp [createOnDevice, hg, cudaMemcpy, hh, hle, this, hc]
  | none =>
    have hm := ha hg
    obtain ⟨f, hf⟩ := Option.isSome_iff_exists.mp hm
    simp [createOnDevice, hg, hf, cudaMemcpy, hh, hle, hc, Fresh.block]

/-- The same for the device as the newer side. -/
theorem sync_deviceNewer_returns {env : Env} {b : ManagedBuffer} (hz : b.size ≠ 0)
    (hn : b.deviceNewer = true) (hsrc : ∃ d, b.gpu_ptr = some d ∧ b.size ≤ d.bytes.length)
    (hdst : ∀ h, b.cpu_ptr = some h → b.size ≤ h.bytes.length)
    (ha : b.cpu_ptr = none → env.malloc.isSome = true) (hc : env.cudaMemcpy = true) :
    ∃ b1, sync env b = .ok b1 := by
  have hnh : b.hostNewer = false := by
    simp only [hostNewer, deviceNewer, Bool.and_eq_true, Bool.not_eq_true'] at hn ⊢
    simp [hn.1, hn.2]
  obtain ⟨d, hd, hle⟩ := hsrc
  unfold sync
  rw [if_neg hz, hnh, if_neg (by simp), if_pos hn]
  cases hg : b.cpu_ptr with
  | some h =>
    have := hdst h hg
    simp [createOnHost, hg, cudaMemcpy, hd, hle, this, hc]
  | none =>
    have hm := ha hg
    obtain ⟨f, hf⟩ := Option.isSome_iff_exists.mp hm
    simp [createOnHost, hg, hf, cudaMemcpy, hd, hle, hc, Fresh.block]

/-- A returning `sync()` on the buffer of a live vector keeps the host pointer and the
size; it clears `host_dirty` unless the size is 0, in which case it changes nothing. -/
theorem sync_hostSide {env : Env} {b b1 : ManagedBuffer} (hs : HostSide b)
    (h : sync env b = .ok b1) :
    b1.cpu_ptr = b.cpu_ptr ∧ b1.size = b.size ∧ HostSide b1 ∧
      (b.size ≠ 0 → b1.host_dirty = false) ∧ (b.size = 0 → b1 = b) := by
  obtain ⟨hdd, ⟨h0, hh0, hl0⟩, hg⟩ := hs
  by_cases hz : b.size = 0
  · unfold sync at h
    rw [if_pos hz] at h
    cases h
    exact ⟨rfl, rfl, ⟨hdd, ⟨h0, hh0, hl0⟩, hg⟩, fun hne => absurd hz hne, fun _ => rfl⟩
  · by_cases hn : b.hostNewer = true
    · obtain ⟨c, _, h2, h3, h4, h5, h6⟩ := sync_hostNewer_post hz hn h
      refine ⟨h3, h4, ⟨h6, ⟨h0, by rw [h3]; exact hh0, by rw [h4]; exact hl0⟩, ?_⟩,
        fun _ => h5, fun hz0 => absurd hz0 hz⟩
      unfold sync at h
      rw [if_neg hz, if_pos hn] at h
      split at h
      · cases h
      · rename_i b2 hc
        obtain ⟨_, hs2, _, _, hp⟩ := inv_createOnDevice hc
        split at h
        · cases h
        · cases h
        · rename_i r hm
          cases h
          obtain ⟨d0, s0, hd0, hs0, hle, hle2, _, rfl⟩ := cudaMemcpy_some hm
          have hdl : d0.bytes.length = b2.size := by
            rcases hp with ⟨hp1, _⟩ | ⟨_, f, _, hp1⟩
            · rw [hs2]
              exact hg d0 (by rw [← hp1]; exact hd0)
            · rw [hd0] at hp1
              simp only [Option.some.injEq] at hp1
              rw [hp1, hs2]
              simp [Fresh.block]
          intro d hd
          simp only [Option.some.injEq] at hd
          subst hd
          simp only [List.length_append, List.length_take, List.length_drop]
          omega
    · have hnd : b.deviceNewer = false := by simp [deviceNewer, hdd]
      unfold sync at h
      rw [if_neg hz, if_neg hn, hnd, if_neg (by simp)] at h
      cases h
      refine ⟨rfl, rfl, ⟨hdd, ⟨h0, hh0, hl0⟩, hg⟩, fun _ => ?_, fun hz0 => absurd hz0 hz⟩
      simpa [hostNewer, hdd] using hn

/-- On the buffer of a live vector `sync()` returns when the runtime does not fail. -/
theorem sync_hostSide_returns {env : Env} {b : ManagedBuffer} (hs : HostSide b)
    (ha : env.cudaMalloc.isSome = true) (hc : env.cudaMemcpy = true) :
    ∃ b1, sync env b = .ok b1 := by
  obtain ⟨hdd, ⟨h0, hh0, hl0⟩, hg⟩ := hs
  by_cases hz : b.size = 0
  · exact ⟨b, by unfold sync; rw [if_pos hz]⟩
  · by_cases hn : b.hostNewer = true
    · exact sync_hostNewer_returns hz hn ⟨h0, hh0, by omega⟩
        (fun d hd => by have := hg d hd; omega) (fun _ => ha) hc
    · have hnd : b.deviceNewer = false := by simp [deviceNewer, hdd]
      exact ⟨b, by unfold sync; rw [if_neg hz, if_neg hn, hnd, if_neg (by simp)]⟩

/-- On a buffer with neither flag set `sync()` returns the buffer as it is. -/
theorem sync_clean {env : Env} {b : ManagedBuffer} (h1 : b.host_dirty = false)
    (h2 : b.device_dirty = false) : sync env b = .ok b := by
  unfold sync
  split
  · rfl
  · simp [hostNewer, deviceNewer, h1, h2]

theorem hostSide_markHost {b b1 : ManagedBuffer} (hs : HostSide b) (h : markHost b = .ok b1) :
    HostSide b1 ∧ b1.cpu_ptr = b.cpu_ptr ∧ b1.size = b.size ∧ b1.host_dirty = true := by
  unfold markHost at h
  split at h
  · cases h
  · cases h
    exact ⟨⟨rfl, hs.2.1, hs.2.2⟩, rfl, rfl, rfl⟩

end ManagedBuffer

/-! ## Lemmas about arrays of elements -/

theorem flatten_length_uniform (w : Nat) (h : List Elem) (he : ∀ e ∈ h, e.length = w) :
    h.flatten.length = h.length * w := by
  induction h with
  | nil => simp
  | cons e t ih =>
    have h1 : e.length = w := he e (List.mem_cons_self _ _)
    have h2 := ih (fun e1 h1 => he e1 (List.mem_cons_of_mem _ h1))
    simp only [List.flatten_cons, List.length_append, List.length_cons, h1, h2]
    ring

theorem flatten_drop_uniform (w : Nat) (h : List Elem) (he : ∀ e ∈ h, e.length = w) (s : Nat) :
    h.flatten.drop (s * w) = (h.drop s).flatten := by
  induction h generalizing s with
  | nil => simp
  | cons e t ih =>
    have h1 : e.length = w := he e (List.mem_cons_self _ _)
    have h2 := ih (fun e1 h1 => he e1 (List.mem_cons_of_mem _ h1))
    cases s with
    | zero => simp
    | succ s =>
      have : (s + 1) * w = e.length + s * w := by rw [h1]; ring
      rw [List.flatten_cons, this, List.drop_append, List.drop_succ_cons]
      exact h2 s

theorem flatten_take_uniform (w : Nat) (h : List Elem) (he : ∀ e ∈ h, e.length = w) (n : Nat) :
    h.flatten.take (n * w) = (h.take n).flatten := by
  induction h generalizing n with
  | nil => simp
  | cons e t ih =>
    have h1 : e.length = w := he e (List.mem_cons_self _ _)
    have h2 := ih (fun e1 h1 => he e1 (List.mem_cons_of_mem _ h1))
    cases n with
    | zero => simp
    | succ n =>
      have : (n + 1) * w = e.length + n * w := by rw [h1]; ring
      rw [List.flatten_cons, this, List.take_append, List.take_succ_cons, List.flatten_cons]
      rw [h2 n]

/-- The bytes of `n` consecutive elements starting at element `s` of an array whose
elements all have `w` bytes. -/
theorem flatten_slice_uniform (w : Nat) (h : List Elem) (he : ∀ e ∈ h, e.length = w)
    (s n : Nat) : (h.flatten.drop (s * w)).take (n * w) = ((h.drop s).take n).flatten := by
  rw [flatten_drop_uniform w h he s]
  exact flatten_take_uniform w (h.drop s) (fun e hm => he e (List.mem_of_mem_drop hm)) n

/-- The bytes of element `i` of an array whose elements all have `w` bytes. -/
theorem flatten_elem_uniform (w : Nat) (h : List Elem) (he : ∀ e ∈ h, e.length = w)
    (i : Nat) (e : Elem) (hi : h[i]? = some e) :
    (h.flatten.drop (i * w)).take w = e := by
  have h1 := flatten_slice_uniform w h he i 1
  rw [Nat.one_mul] at h1
  rw [h1]
  have h2 : (h.drop i).take 1 = [e] := by
    have h3 : (h.drop i)[0]? = some e := by rw [List.getElem?_drop]; simpa using hi
    cases hd : h.drop i with
    | nil => rw [hd] at h3; simp at h3
    | cons a t =>
      rw [hd] at h3
      simp only [List.getElem?_cons_zero, Option.some.injEq] at h3
      simp [h3]
  rw [h2]
  simp

theorem sizeof_pos (T : Datatype) : 0 < T.sizeof := by
  cases T <;> decide

/-- Without wrap-around `regionNcopy` is the smaller of `length_ - start` and `size`. -/
theorem regionNcopy_eq_min (L start size : Int) (h0 : 0 ≤ start) (h1 : start ≤ L)
    (h2 : L < 2 ^ 63) : AltGPUVector.regionNcopy L start size = min (L - start) size := by
  have hw : wrapXlen (L - start) = L - start := by
    unfold wrapXlen
    have : (L - start + 2 ^ 63) % 2 ^ 64 = L - start + 2 ^ 63 :=
      Int.emod_eq_of_lt (by omega) (by omega)
    omega
  unfold AltGPUVector.regionNcopy
  simp only [hw]
  split
  · rw [min_eq_left]; omega
  · rw [min_eq_right]; omega

/-! ## Lemmas about `AltGPUVector` -/

namespace AltGPUVector

theorem Get_some (v : AltGPUVector) : Get (some v) = .ok v := rfl

theorem Get_none : Get none = .error .freed := rfl

theorem Dataptr_or_null_inv {env : Env} {x x1 : ExternalPtr} {p : Option Block}
    (h : Dataptr_or_null env x = .ok (p, x1)) :
    ∃ v b1, x = some v ∧ ManagedBuffer.sync env v.buffer = .ok b1 ∧ p = b1.cpu_ptr ∧
      x1 = some { v with buffer := b1 } := by
  cases x with
  | none => simp [Dataptr_or_null, Get_none] at h
  | some v =>
    simp only [Dataptr_or_null, Get_some] at h
    split at h
    · cases h
    · rename_i b1 hs
      cases h
      exact ⟨v, b1, rfl, hs, rfl, rfl⟩

theorem Dataptr_inv {env : Env} {x x1 : ExternalPtr} {w : Bool} {p : Option Block}
    (h : Dataptr env x w = .ok (p, x1)) :
    ∃ v b1, x = some v ∧ ManagedBuffer.sync env v.buffer = .ok b1 ∧
      ((w = false ∧ p = b1.cpu_ptr ∧ x1 = some { v with buffer := b1 }) ∨
       (w = true ∧ ∃ b2, ManagedBuffer.markHost b1 = .ok b2 ∧ p = b2.cpu_ptr ∧
          x1 = some { v with buffer := b2 })) := by
  cases x with
  | none => simp [Dataptr, Get_none] at h
  | some v =>
    simp only [Dataptr, Get_some] at h
    split at h
    · cases h
    · rename_i b1 hs
      cases w with
      | false =>
        simp only [Bool.false_eq_true, if_false] at h
        cases h
        exact ⟨v, b1, rfl, hs, Or.inl ⟨rfl, rfl, rfl⟩⟩
      | true =>
        simp only [if_true] at h
        split at h
        · cases h
        · rename_i b2 hm
          cases h
          exact ⟨v, b1, rfl, hs, Or.inr ⟨rfl, b2, hm, rfl, rfl⟩⟩

theorem elt_inv {T : Datatype} {env : Env} {x x1 : ExternalPtr} {i : Int} {val : Elem}
    (h : elt T env x i = .ok (val, x1)) :
    ∃ v b1, x = some v ∧ ManagedBuffer.sync env v.buffer = .ok b1 ∧
      readElem T.sizeof b1.cpu_ptr i = .ok val ∧ x1 = some { v with buffer := b1 } := by
  cases x with
  | none => simp [elt, Get_none] at h
  | some v =>
    simp only [elt, Get_some] at h
    split at h
    · cases h
    · rename_i b1 hs
      split at h
      · cases h
      · rename_i val1 hr
        cases h
        exact ⟨v, b1, rfl, hs, hr, rfl⟩

theorem Get_region_inv {T : Datatype} {env : Env} {x x1 : ExternalPtr} {start size n : Int}
    {out out1 : List Byte} (h : Get_region T env x start size out = .ok (n, out1, x1)) :
    ∃ v b1, x = some v ∧ ManagedBuffer.sync env v.buffer = .ok b1 ∧
      n = regionNcopy v.length_ start size ∧
      memcpyOut out b1.cpu_ptr (start * T.sizeof) (toSizeT n * T.sizeof % 2 ^ 64) = .ok out1 ∧
      x1 = some { v with buffer := b1 } := by
  cases x with
  | none => simp [Get_region, Get_none] at h
  | some v =>
    simp only [Get_region, Get_some] at h
    split at h
    · cases h
    · rename_i b1 hs
      split at h
      · cases h
      · rename_i o1 hr
        cases h
        exact ⟨v, b1, rfl, hs, rfl, hr, rfl⟩

theorem vinv_sync {T : Datatype} {env : Env} {v : AltGPUVector} {b1 : ManagedBuffer}
    (hv : VInv T (some v)) (hs : ManagedBuffer.sync env v.buffer = .ok b1) :
    VInv T (some { v with buffer := b1 }) := by
  obtain ⟨v0, hv0, hx, hsz, hhs⟩ := hv
  cases hv0
  obtain ⟨_, h2, h3, _, _⟩ := ManagedBuffer.sync_hostSide hhs hs
  exact ⟨_, rfl, hx, by simpa [h2] using hsz, h3⟩

theorem vinv_construct {T : Datatype} {env : Env} {n : Int} {x : ExternalPtr}
    (hn : IsXlen n) (h : Construct T env n = .ok x) : VInv T x := by
  unfold Construct new at h
  split at h
  · cases h
  · rename_i v hv
    cases h
    split at hv
    · cases hv
    · rename_i b hb
      cases hv
      unfold ManagedBuffer.allocateHost at hb
      simp only [ManagedBuffer.empty, ne_eq, not_true_eq_false, if_false] at hb
      split at hb
      · cases hb
      · rename_i b2 hc
        cases hb
        obtain ⟨hg, hs, _, _, hp⟩ := ManagedBuffer.inv_createOnHost hc
        simp only at hg hs hp
        refine ⟨_, rfl, hn, hs, rfl, ?_, ?_⟩
        · rcases hp with ⟨_, hne⟩ | ⟨_, f, _, hp1⟩
          · exact absurd rfl hne
          · exact ⟨_, hp1, by simp [Fresh.block, hs]⟩
        · intro d hd
          simp only [hg] at hd
          cases hd

theorem vinv_of_live {T : Datatype} {x : ExternalPtr} (h : Live T x) : VInv T x := by
  induction h with
  | construct env n hn hc => exact vinv_construct hn hc
  | dataptrOrNull env _ hd ih =>
    obtain ⟨v, b1, rfl, hs, _, rfl⟩ := Dataptr_or_null_inv hd
    exact vinv_sync ih hs
  | dataptr env w _ hd ih =>
    obtain ⟨v, b1, rfl, hs, hcase⟩ := Dataptr_inv hd
    have h1 := vinv_sync ih hs
    rcases hcase with ⟨_, _, rfl⟩ | ⟨_, b2, hm, _, rfl⟩
    · exact h1
    · obtain ⟨v0, hv0, hx, hsz, hhs⟩ := h1
      cases hv0
      obtain ⟨k1, _, k3, _⟩ := ManagedBuffer.hostSide_markHost hhs hm
      exact ⟨_, rfl, hx, by simpa [k3] using hsz, k1⟩
  | elt env i _ he ih =>
    obtain ⟨v, b1, rfl, hs, _, rfl⟩ := elt_inv he
    exact vinv_sync ih hs
  | getRegion env start size out _ hg ih =>
    obtain ⟨v, b1, rfl, hs, _, _, rfl⟩ := Get_region_inv hg
    exact vinv_sync ih hs
  | hostStore off data _ hst ih =>
    obtain ⟨v, rfl, hx, hsz, hdd, ⟨h0, hh0, hl0⟩, hg⟩ := ih
    simp only [hostStore, hh0] at hst
    split at hst
    · cases hst
    · rename_i h1 hs1
      cases hst
      exact ⟨_, rfl, hx, hsz, hdd, ⟨h1, rfl, by rw [ManagedBuffer.store_length hs1]; exact hl0⟩, hg⟩

/-- What `Construct(n)` returns: the host side is a new block of
`static_cast<size_t>(n) * sizeof(Datatype)` bytes (modulo `2 ^ 64`), marked dirty. -/
theorem Construct_inv {T : Datatype} {env : Env} {n : Int} {x : ExternalPtr}
    (h : Construct T env n = .ok x) :
    ∃ f, env.malloc = some f ∧
      x = some { length_ := n
                 buffer := { cpu_ptr := some (f.block (toSizeT n * T.sizeof % 2 ^ 64))
                             gpu_ptr := none
                             size := toSizeT n * T.sizeof % 2 ^ 64
                             host_dirty := true
                             device_dirty := false } } := by
  unfold Construct new at h
  split at h
  · cases h
  · rename_i v hv
    cases h
    split at hv
    · cases hv
    · rename_i b hb
      cases hv
      cases hm : env.malloc with
      | none => simp [ManagedBuffer.allocateHost, ManagedBuffer.empty,
          ManagedBuffer.createOnHost, hm] at hb
      | some f =>
        simp only [ManagedBuffer.allocateHost, ManagedBuffer.empty, ManagedBuffer.createOnHost,
          hm, ne_eq, not_true_eq_false, if_false, Except.ok.injEq] at hb
        exact ⟨f, rfl, by rw [← hb]⟩

theorem hostStore_inv {v : AltGPUVector} {x1 : ExternalPtr} {off : Nat} {data : List Byte}
    (h : hostStore (some v) off data = .ok x1) :
    ∃ h0 h1, v.buffer.cpu_ptr = some h0 ∧ h0.store off data = .ok h1 ∧
      x1 = some { v with buffer := { v.buffer with cpu_ptr := some h1 } } := by
  simp only [hostStore] at h
  split at h
  · cases h
  · rename_i h0 hh0
    split at h
    · cases h
    · rename_i h1 hs1
      cases h
      exact ⟨h0, h1, hh0, hs1, rfl⟩

/-- Overwriting a whole block from offset 0 leaves exactly the data written. -/
theorem store_whole {blk blk1 : Block} {data : List Byte} (h : blk.store 0 data = .ok blk1)
    (hl : data.length = blk.bytes.length) : blk1.bytes = data ∧ blk1.addr = blk.addr := by
  unfold Block.store at h
  split at h
  · cases h
    simp [hl]
  · cases h

/-- The copy made by `Get_region` when the request lies inside the array. -/
theorem memcpyOut_slice (w : Nat) (hw : 0 < w) (blk : Block) (h : List Elem)
    (he : ∀ e ∈ h, e.length = w)
    (hb : blk.bytes = h.flatten) (hlt : h.length * w < 2 ^ 64) (start n : Int) (out : List Byte)
    (h0 : 0 ≤ start) (h1 : 0 ≤ n) (h2 : start + n ≤ h.length)
    (hout : n.toNat * w ≤ out.length) :
    memcpyOut out (some blk) (start * w) (toSizeT n * w % 2 ^ 64) =
      .ok (((h.drop start.toNat).take n.toNat).flatten ++ out.drop (n.toNat * w)) := by
  obtain ⟨s, rfl⟩ := Int.eq_ofNat_of_zero_le h0
  obtain ⟨k, rfl⟩ := Int.eq_ofNat_of_zero_le h1
  have hsk : s + k ≤ h.length := by exact_mod_cast h2
  have hkw : k * w ≤ h.length * w := Nat.mul_le_mul_right w (by omega)
  have hskw : s * w + k * w ≤ h.length * w := by
    rw [← Nat.add_mul]; exact Nat.mul_le_mul_right w hsk
  have hkk : k ≤ k * w := Nat.le_mul_of_pos_right k hw
  have hts : toSizeT (k : Int) = k := by
    unfold toSizeT
    have : ((k : Int) % 2 ^ 64) = k := Int.emod_eq_of_lt (by omega) (by omega)
    rw [this]
    simp
  have hmod : k * w % 2 ^ 64 = k * w := Nat.mod_eq_of_lt (by omega)
  have hoff : ((s : Int) * (w : Int)).toNat = s * w := by
    have : (s : Int) * (w : Int) = ((s * w : Nat) : Int) := by push_cast; rfl
    rw [this]; exact Int.toNat_ofNat _
  have hnn : (0 : Int) ≤ (s : Int) * (w : Int) := by positivity
  have hlen : blk.bytes.length = h.length * w := by rw [hb, flatten_length_uniform w h he]
  simp only [Int.toNat_ofNat] at hout ⊢
  unfold memcpyOut
  simp only [hts, hmod, hoff, hlen]
  rw [if_pos ⟨hnn, hskw, hout⟩, hb, flatten_slice_uniform w h he]

end AltGPUVector

/-! ## The claims about `ManagedBuffer` -/

/-- C1 (dirty-flag exclusivity): in every state of a `ManagedBuffer` that is reachable
from the default-constructed buffer by returning calls of `allocateHost`,
`allocateDevice`, `markHost`, `markDevice`, `sync`, `freeAll` (and writes followed by
a mark), and by move construction and move assignment, `host_dirty` and `device_dirty`
are not both true. -/
theorem dirty_flags_exclusive (b : ManagedBuffer) (h : ManagedBuffer.Reachable b) :
    ¬ (b.host_dirty = true ∧ b.device_dirty = true) :=
  (ManagedBuffer.inv_of_reachable h).excl

/-- Witness of C1 at the buffer of the cross-side scenario. -/
theorem dirty_flags_exclusive_witness :
    ManagedBuffer.Reachable crossSideState ∧
      ¬ (crossSideState.host_dirty = true ∧ crossSideState.device_dirty = true) :=
  have hr : ManagedBuffer.Reachable crossSideState :=
    ManagedBuffer.reachable_of_run ManagedBuffer.Reachable.init
      (rfl : ManagedBuffer.run crossSideOps ManagedBuffer.empty = .ok crossSideState)
  ⟨hr, dirty_flags_exclusive crossSideState hr⟩

/-- C2 (coherence): after any sequence of calls on the empty buffer (allocations,
host writes as store-then-`markHost`, device writes as store-then-`markDevice`,
marks, `freeAll`, `sync`), when a `sync()` returns and both sides are allocated, the
two blocks hold the same bytes. -/
theorem sync_coherent (ops : List (Env × ManagedBuffer.Op)) (env : Env) (b b1 : ManagedBuffer)
    (hrun : ManagedBuffer.run ops ManagedBuffer.empty = .ok b)
    (hsync : ManagedBuffer.sync env b = .ok b1) (h d : Block)
    (hh : b1.cpu_ptr = some h) (hd : b1.gpu_ptr = some d) : h.bytes = d.bytes := by
  have hi := ManagedBuffer.inv_of_reachable
    (ManagedBuffer.reachable_of_run ManagedBuffer.Reachable.init hrun)
  have hi1 := ManagedBuffer.inv_sync hi hsync
  by_cases hz : b.size = 0
  · have hb : b1 = b := by
      unfold ManagedBuffer.sync at hsync
      rw [if_pos hz] at hsync
      cases hsync; rfl
    subst hb
    have h1 : h.bytes.length = 0 := by
      rcases hi.hostCap h hh with h1 | h1 <;> omega
    have h2 : d.bytes.length = 0 := by
      rcases hi.devCap d hd with h1 | h1 <;> omega
    rw [List.length_eq_zero.mp h1, List.length_eq_zero.mp h2]
  · obtain ⟨c1, c2⟩ := ManagedBuffer.sync_clears hz hi.excl hsync
    exact hi1.coh c1 c2 h d hh hd

/-- Witness of C2: the `sync()` of the cross-side scenario. -/
theorem sync_coherent_witness :
    ManagedBuffer.run crossSideOps ManagedBuffer.empty = .ok crossSideState ∧
    ManagedBuffer.sync envOk crossSideState = .ok crossSideSynced ∧
    (Block.mk 4096 [99, 0, 0, 0, 20, 0, 0, 0, 30, 0, 0, 0]).bytes =
      (Block.mk 8192 [99, 0, 0, 0, 20, 0, 0, 0, 30, 0, 0, 0]).bytes :=
  ⟨rfl, rfl,
    sync_coherent crossSideOps envOk crossSideState crossSideSynced rfl rfl
      { addr := 4096, bytes := [99, 0, 0, 0, 20, 0, 0, 0, 30, 0, 0, 0] }
      { addr := 8192, bytes := [99, 0, 0, 0, 20, 0, 0, 0, 30, 0, 0, 0] } rfl rfl⟩

/-- C3 (sync propagates the authoritative side): for every buffer state with
`size != 0`, if the host is the newer side then a returning `sync()` leaves the device
side allocated with the contents (the `size` bytes) the host side had, the host
pointer and contents unchanged and both flags false, and `sync()` does return when the
host side holds `size` bytes, the device side is absent or holds `size` bytes, and
neither `cudaMalloc` nor `cudaMemcpy` fails; symmetrically when the device is the
newer side.  In the cross-side scenario (host written with 10, 20, 30, device written
with 99, 20, 30, then `sync()`) host element 0 is 99 and host element 1 is 20. -/
theorem sync_propagates_newer (b : ManagedBuffer) (env : Env) (hsz : b.size ≠ 0) :
    (b.hostNewer = true →
      (∀ b1, ManagedBuffer.sync env b = .ok b1 →
        b1.hasDevice = true ∧
        (∃ c, b.hostContents = some c ∧ b1.deviceContents = some c ∧ b1.hostContents = some c) ∧
        b1.cpu_ptr = b.cpu_ptr ∧ b1.host_dirty = false ∧ b1.device_dirty = false) ∧
      ((∃ h, b.cpu_ptr = some h ∧ b.size ≤ h.bytes.length) →
        (∀ d, b.gpu_ptr = some d → b.size ≤ d.bytes.length) →
        (b.gpu_ptr = none → env.cudaMalloc.isSome = true) → env.cudaMemcpy = true →
        ∃ b1, ManagedBuffer.sync env b = .ok b1)) ∧
    (b.deviceNewer = true →
      (∀ b1, ManagedBuffer.sync env b = .ok b1 →
        b1.hasHost = true ∧
        (∃ c, b.deviceContents = some c ∧ b1.hostContents = some c ∧ b1.deviceContents = some c) ∧
        b1.gpu_ptr = b.gpu_ptr ∧ b1.host_dirty = false ∧ b1.device_dirty = false) ∧
      ((∃ d, b.gpu_ptr = some d ∧ b.size ≤ d.bytes.length) →
        (∀ h, b.cpu_ptr = some h → b.size ≤ h.bytes.length) →
        (b.cpu_ptr = none → env.malloc.isSome = true) → env.cudaMemcpy = true →
        ∃ b1, ManagedBuffer.sync env b = .ok b1)) ∧
    (ManagedBuffer.run crossSideOps ManagedBuffer.empty = .ok crossSideState ∧
      ManagedBuffer.sync envOk crossSideState = .ok crossSideSynced ∧
      readElem Datatype.int.sizeof crossSideSynced.getHostPtr 0 = .ok (int32LE 99) ∧
      readElem Datatype.int.sizeof crossSideSynced.getHostPtr 1 = .ok (int32LE 20)) := by
  refine ⟨fun hn => ⟨fun b1 h => ?_, ManagedBuffer.sync_hostNewer_returns hsz hn⟩,
    fun hn => ⟨fun b1 h => ?_, ManagedBuffer.sync_deviceNewer_returns hsz hn⟩,
    rfl, rfl, rfl, rfl⟩
  · obtain ⟨c, h1, h2, h3, h4, h5, h6⟩ := ManagedBuffer.sync_hostNewer_post hsz hn h
    refine ⟨?_, ⟨c, h1, h2, ?_⟩, h3, h5, h6⟩
    · cases hg : b1.gpu_ptr with
      | none => simp [ManagedBuffer.deviceContents, hg] at h2
      | some d => simp [ManagedBuffer.hasDevice, hg]
    · simpa [ManagedBuffer.hostContents, h3, h4] using h1
  · obtain ⟨c, h1, h2, h3, h4, h5, h6⟩ := ManagedBuffer.sync_deviceNewer_post hsz hn h
    refine ⟨?_, ⟨c, h1, h2, ?_⟩, h3, h5, h6⟩
    · cases hg : b1.cpu_ptr with
      | none => simp [ManagedBuffer.hostContents, hg] at h2
      | some d => simp [ManagedBuffer.hasHost, hg]
    · simpa [ManagedBuffer.deviceContents, h3, h4] using h1

/-- Witness of C3 at the buffer of the cross-side scenario, whose device side is the
newer one: its `sync()` returns the synced buffer. -/
theorem sync_propagates_newer_witness :
    crossSideState.size ≠ 0 ∧ crossSideState.deviceNewer = true ∧
      crossSideSynced.hasHost = true ∧
      crossSideSynced.hostContents = some [99, 0, 0, 0, 20, 0, 0, 0, 30, 0, 0, 0] ∧
      crossSideSynced.gpu_ptr = crossSideState.gpu_ptr ∧
      crossSideSynced.host_dirty = false ∧ crossSideSynced.device_dirty = false :=
  have h := ((sync_propagates_newer crossSideState envOk (by decide)).2.1 rfl).1
    crossSideSynced rfl
  ⟨by decide, rfl, h.1, rfl, h.2.2.1, h.2.2.2.1, h.2.2.2.2⟩

/-- C8 (idempotent release): for every buffer state `s`, `freeAll` leaves the empty
state (no host allocation, no device allocation, size 0, both flags false) and
releases each allocation of `s` exactly once; a second `freeAll` leaves the same state
and releases nothing. -/
theorem freeAll_idempotent (s : ManagedBuffer) :
    (ManagedBuffer.freeAll s).1 = ManagedBuffer.empty ∧
    ((ManagedBuffer.freeAll s).1.cpu_ptr = none ∧ (ManagedBuffer.freeAll s).1.gpu_ptr = none ∧
      (ManagedBuffer.freeAll s).1.size = 0 ∧ (ManagedBuffer.freeAll s).1.host_dirty = false ∧
      (ManagedBuffer.freeAll s).1.device_dirty = false) ∧
    (ManagedBuffer.freeAll s).2 =
      (s.cpu_ptr.map fun h => Release.free h.addr).toList ++
      (s.gpu_ptr.map fun d => Release.cudaFree d.addr).toList ∧
    (ManagedBuffer.freeAll (ManagedBuffer.freeAll s).1).1 = (ManagedBuffer.freeAll s).1 ∧
    (ManagedBuffer.freeAll (ManagedBuffer.freeAll s).1).2 = [] := by
  refine ⟨rfl, ⟨rfl, rfl, rfl, rfl, rfl⟩, ?_, rfl, rfl⟩
  cases hc : s.cpu_ptr <;> cases hg : s.gpu_ptr <;> simp [ManagedBuffer.freeAll, hc, hg]

/-! ## The claims about `AltGPUVector` -/

/-- The handle `intVec3` is live: it is `Construct(3)` followed by a client write. -/
theorem intVec3_live : AltGPUVector.Live Datatype.int intVec3 :=
  AltGPUVector.Live.hostStore 0 (int32LE 10 ++ int32LE 20 ++ int32LE 30)
    (AltGPUVector.Live.construct envOk 3 (by decide)
      (rfl : AltGPUVector.Construct Datatype.int envOk 3 = .ok intVec3New))
    (rfl : AltGPUVector.hostStore intVec3New 0 (int32LE 10 ++ int32LE 20 ++ int32LE 30)
      = .ok intVec3)

/-- C4 (`Get_region` result): for every live vector of length `L` whose host side holds
the `L` elements `h`, every `start` with `0 <= start <= L` and every requested count
`size >= 0` (the caller's array `out` having room for the `n` elements), when the
runtime does not fail `Get_region(x, start, size, out)` returns `n = min(L - start, size)`,
has written to the front of `out` exactly the `n` elements `h[start], ..., h[start+n-1]`,
and leaves the host contents and the length unchanged. -/
theorem Get_region_slice (T : Datatype) (env : Env) (x : ExternalPtr)
    (hlive : AltGPUVector.Live T x) (L : Int) (h : List Elem)
    (hL : AltGPUVector.Length x = .ok L) (hlen : (h.length : Int) = L)
    (helem : ∀ e ∈ h, e.length = T.sizeof)
    (hhost : AltGPUVector.hostBytes x = some h.flatten)
    (start size : Int) (hs0 : 0 ≤ start) (hs1 : start ≤ L) (hsz : 0 ≤ size)
    (out : List Byte) (hout : (min (L - start) size).toNat * T.sizeof ≤ out.length)
    (ha : env.cudaMalloc.isSome = true) (hc : env.cudaMemcpy = true) :
    ∃ x1, AltGPUVector.Get_region T env x start size out =
        .ok (min (L - start) size,
             ((h.drop start.toNat).take (min (L - start) size).toNat).flatten ++
               out.drop ((min (L - start) size).toNat * T.sizeof), x1) ∧
      AltGPUVector.hostBytes x1 = some h.flatten ∧ AltGPUVector.Length x1 = .ok L := by
  obtain ⟨v, rfl, hx, hsize, hhs⟩ := AltGPUVector.vinv_of_live hlive
  obtain ⟨b1, hs⟩ := ManagedBuffer.sync_hostSide_returns hhs ha hc
  obtain ⟨k1, k2, _, _, _⟩ := ManagedBuffer.sync_hostSide hhs hs
  obtain ⟨_, ⟨h0, hh0, hl0⟩, _⟩ := hhs
  simp only [AltGPUVector.Length, AltGPUVector.Get_some, Except.ok.injEq] at hL
  simp only [AltGPUVector.hostBytes, hh0, Option.map_some', Option.some.injEq] at hhost
  have hlt : h.length * T.sizeof < 2 ^ 64 := by
    rw [← flatten_length_uniform T.sizeof h helem, ← hhost, hl0, hsize]
    exact Nat.mod_lt _ (by norm_num)
  have hL63 : L < 2 ^ 63 := by rw [← hL]; exact hx.2
  have hn := regionNcopy_eq_min L start size hs0 hs1 hL63
  have hn0 : 0 ≤ min (L - start) size := le_min (by omega) hsz
  have hn1 : start + min (L - start) size ≤ h.length := by
    have := min_le_left (L - start) size
    omega
  have hn2 : (min (L - start) size).toNat * T.sizeof ≤ out.length := hout
  have hcopy := AltGPUVector.memcpyOut_slice T.sizeof (sizeof_pos T) h0 h helem hhost hlt
    start (min (L - start) size) out hs0 hn0 hn1 hn2
  refine ⟨some { v with buffer := b1 }, ?_, ?_, ?_⟩
  · simp only [AltGPUVector.Get_region, AltGPUVector.Get_some, hs, ManagedBuffer.getHostPtr, k1,
      hh0, hL, hn]
    rw [hcopy]
  · simp [AltGPUVector.hostBytes, k1, hh0, hhost]
  · simp [AltGPUVector.Length, AltGPUVector.Get_some, hL]

/-- Witness of C4: reading 5 elements from element 1 of the vector 10, 20, 30 returns
2 and stores 20, 30 at the front of `out`. -/
theorem Get_region_slice_witness :
    ∃ x1, AltGPUVector.Get_region Datatype.int envOk intVec3 1 5 (List.replicate 20 7) =
        .ok (2, [20, 0, 0, 0, 30, 0, 0, 0] ++ List.replicate 12 7, x1) ∧
      AltGPUVector.hostBytes x1 = some [10, 0, 0, 0, 20, 0, 0, 0, 30, 0, 0, 0] ∧
      AltGPUVector.Length x1 = .ok 3 :=
  Get_region_slice Datatype.int envOk intVec3 intVec3_live 3
    [int32LE 10, int32LE 20, int32LE 30] rfl rfl (by decide) rfl 1 5 (by decide) (by decide)
    (by decide) (List.replicate 20 7) (by decide) rfl rfl

/-- C5 (region clamp beyond the end), evaluated on the live `int` vector 10, 20, 30 of
length 3 at `start = 4`, `size = 1`: `ncopy` is `3 - 4 = -1`, not 0; the `memcpy` is
asked for `static_cast<size_t>(-1) * 4 = 2^64 - 4` bytes starting 4 bytes past the end
of the 12-byte host block, and `Get_region` does not return 0 elements. -/
theorem Get_region_start_past_length :
    AltGPUVector.Live Datatype.int intVec3 ∧
    AltGPUVector.Length intVec3 = .ok 3 ∧
    AltGPUVector.regionNcopy 3 4 1 = -1 ∧
    toSizeT (AltGPUVector.regionNcopy 3 4 1) * Datatype.int.sizeof % 2 ^ 64 = 2 ^ 64 - 4 ∧
    AltGPUVector.Get_region Datatype.int envOk intVec3 4 1 (List.replicate 4 7) =
      .error .outOfBounds :=
  ⟨intVec3_live, rfl, by decide, by decide, rfl⟩

/-- C6 (`Get_region` stays inside the array), refuted on the code: it is not the case
that for all `R_xlen_t` values `L >= 0`, `start`, `size` the element count
`static_cast<size_t>(ncopy)` of the `memcpy` satisfies `start + ncopy <= L` and
`ncopy <= size`.  For `L = 3`, `start = 4`, `size = 10` the count is `2^64 - 1`. -/
theorem Get_region_count_not_clamped :
    toSizeT (AltGPUVector.regionNcopy 3 4 10) = 2 ^ 64 - 1 ∧
    ¬ (∀ L start size : Int, 0 ≤ L → IsXlen L → IsXlen start → IsXlen size →
        start + (toSizeT (AltGPUVector.regionNcopy L start size) : Int) ≤ L ∧
        (toSizeT (AltGPUVector.regionNcopy L start size) : Int) ≤ size) :=
  ⟨by decide, fun h =>
    absurd (h 3 4 10 (by decide) (by decide) (by decide) (by decide)).1 (by decide)⟩

/-- C7 (use after dispose): for every element type, environment and length `n`, when
`Construct(n)` returns a handle `x`, then `x` holds an instance, `Destruct(x)` clears
the cell, and afterwards `elt` (for every index), `Length`, `Get_region`, `Dataptr`,
`Dataptr_or_null` and `Inspect` all end with the "freed" error of
`AltGPUVector_Unwrap`, which is not a process abort; a second `Destruct` releases
nothing and leaves the cell cleared. -/
theorem use_after_dispose (T : Datatype) (env : Env) (n : Int) (x : ExternalPtr)
    (hc : AltGPUVector.Construct T env n = .ok x) :
    x.isSome = true ∧ (AltGPUVector.Destruct x).1 = none ∧
    (∀ env1 i, AltGPUVector.elt T env1 (AltGPUVector.Destruct x).1 i = .error .freed) ∧
    AltGPUVector.Length (AltGPUVector.Destruct x).1 = .error .freed ∧
    (∀ env1 start size out,
      AltGPUVector.Get_region T env1 (AltGPUVector.Destruct x).1 start size out = .error .freed) ∧
    (∀ env1 w, AltGPUVector.Dataptr env1 (AltGPUVector.Destruct x).1 w = .error .freed) ∧
    (∀ env1, AltGPUVector.Dataptr_or_null env1 (AltGPUVector.Destruct x).1 = .error .freed) ∧
    AltGPUVector.Inspect (AltGPUVector.Destruct x).1 = .error .freed ∧
    AltGPUVector.AltGPUVector_Unwrap (AltGPUVector.Destruct x).1 = .error .freed ∧
    Err.freed.isAbort = false ∧
    AltGPUVector.Destruct (AltGPUVector.Destruct x).1 = (none, []) := by
  have hx : ∃ v, x = some v := by
    unfold AltGPUVector.Construct at hc
    split at hc
    · cases hc
    · rename_i v _
      cases hc
      exact ⟨v, rfl⟩
  obtain ⟨v, rfl⟩ := hx
  exact ⟨rfl, rfl, fun _ _ => rfl, rfl, fun _ _ _ _ => rfl, fun _ _ => rfl, fun _ => rfl, rfl,
    rfl, rfl, rfl⟩

/-- Witness of C7: `Construct(3)` of an `int` vector, then `Destruct`. -/
theorem use_after_dispose_witness :
    intVec3New.isSome = true ∧ (AltGPUVector.Destruct intVec3New).1 = none ∧
    AltGPUVector.elt Datatype.int envOk (AltGPUVector.Destruct intVec3New).1 0 = .error .freed ∧
    AltGPUVector.Destruct (AltGPUVector.Destruct intVec3New).1 = (none, []) :=
  have h := use_after_dispose Datatype.int envOk 3 intVec3New rfl
  ⟨h.1, h.2.1, h.2.2.1 envOk 0, h.2.2.2.2.2.2.2.2.2.2⟩

/-- C9 (`Dataptr` with write access), what the code does on every live vector when
the runtime does not fail: with `writeable = FALSE` it returns the host pointer and
leaves the buffer as `sync()` left it; with `writeable = TRUE` and a buffer size other
than 0 it returns the host pointer and leaves `host_dirty = true`,
`device_dirty = false`; with `writeable = TRUE` and buffer size 0 (a vector of length 0)
it ends in the `std::abort()` of `markHost`. -/
theorem Dataptr_writeable_live (T : Datatype) (env : Env) (v : AltGPUVector)
    (hlive : AltGPUVector.Live T (some v))
    (ha : env.cudaMalloc.isSome = true) (hc : env.cudaMemcpy = true) :
    (∃ b1, ManagedBuffer.sync env v.buffer = .ok b1 ∧
      AltGPUVector.Dataptr env (some v) false =
        .ok (v.buffer.getHostPtr, some { v with buffer := b1 })) ∧
    (v.buffer.size ≠ 0 →
      ∃ b2, AltGPUVector.Dataptr env (some v) true =
          .ok (v.buffer.getHostPtr, some { v with buffer := b2 }) ∧
        b2.getHostPtr = v.buffer.getHostPtr ∧ b2.host_dirty = true ∧ b2.device_dirty = false) ∧
    (v.buffer.size = 0 →
      AltGPUVector.Dataptr env (some v) true = .error .abortMarkHost ∧
        Err.abortMarkHost.isAbort = true) := by
  obtain ⟨v0, hv0, _, _, hhs⟩ := AltGPUVector.vinv_of_live hlive
  cases hv0
  obtain ⟨b1, hs⟩ := ManagedBuffer.sync_hostSide_returns hhs ha hc
  obtain ⟨k1, k2, _, _, k5⟩ := ManagedBuffer.sync_hostSide hhs hs
  refine ⟨⟨b1, hs, ?_⟩, fun hz => ?_, fun hz => ⟨?_, rfl⟩⟩
  · simp [AltGPUVector.Dataptr, AltGPUVector.Get_some, hs, ManagedBuffer.getHostPtr, k1]
  · refine ⟨{ b1 with host_dirty := true, device_dirty := false }, ?_, k1, rfl, rfl⟩
    have hz1 : b1.size ≠ 0 := by rw [k2]; exact hz
    simp [AltGPUVector.Dataptr, AltGPUVector.Get_some, hs, ManagedBuffer.markHost, hz1,
      ManagedBuffer.getHostPtr, k1]
  · have hb : b1 = v.buffer := k5 hz
    subst hb
    simp [AltGPUVector.Dataptr, AltGPUVector.Get_some, hs, ManagedBuffer.markHost, hz]

/-- Witness of C9 at the failing input: `Construct(0)` returns the handle `doubleVec0`,
which is live, and `Dataptr(x, TRUE)` on it aborts. -/
theorem Dataptr_writeable_live_witness :
    AltGPUVector.Construct Datatype.double envOk 0 = .ok doubleVec0 ∧
    AltGPUVector.Dataptr envOk doubleVec0 true = .error .abortMarkHost ∧
    Err.abortMarkHost.isAbort = true :=
  ⟨rfl,
    (Dataptr_writeable_live Datatype.double envOk
      { length_ := 0
        buffer := { cpu_ptr := some { addr := 4096, bytes := [] }, size := 0, host_dirty := true } }
      (AltGPUVector.Live.construct envOk 0 (by decide) rfl) rfl rfl).2.2 rfl⟩

/-- C10 (round trip through the host side): for every length `n > 0`, every list `v`
of `n` elements and every index `0 <= i < n`: after `Construct(n)` and a client write
of `v` into the host side, `Dataptr(x, FALSE)` returns (the runtime not failing) and
then `elt(x, i)` returns `v[i]`. -/
theorem round_trip_host (T : Datatype) (env0 env1 env2 : Env) (n i : Int) (v : List Elem)
    (e : Elem) (x x1 : ExternalPtr) (hn : 0 < n) (hv : (v.length : Int) = n)
    (helem : ∀ a ∈ v, a.length = T.sizeof) (hi0 : 0 ≤ i) (hi1 : i < n)
    (he : v[i.toNat]? = some e)
    (hc : AltGPUVector.Construct T env0 n = .ok x)
    (hw : AltGPUVector.hostStore x 0 v.flatten = .ok x1)
    (ha : env1.cudaMalloc.isSome = true) (hm : env1.cudaMemcpy = true) :
    ∃ p x2 x3, AltGPUVector.Dataptr env1 x1 false = .ok (p, x2) ∧
      AltGPUVector.elt T env2 x2 i = .ok (e, x3) := by
  obtain ⟨f, _, rfl⟩ := AltGPUVector.Construct_inv hc
  obtain ⟨h0, h1, hh0, hst, rfl⟩ := AltGPUVector.hostStore_inv hw
  simp only [Option.some.injEq] at hh0
  subst hh0
  have hw0 := sizeof_pos T
  have hD : v.flatten.length = v.length * T.sizeof := flatten_length_uniform _ v helem
  have hvl : v.length = n.toNat := by omega
  have hcap : (f.block (toSizeT n * T.sizeof % 2 ^ 64)).bytes.length =
      toSizeT n * T.sizeof % 2 ^ 64 := by simp [Fresh.block]
  have hle : v.flatten.length ≤ toSizeT n * T.sizeof % 2 ^ 64 := by
    have := hst
    unfold Block.store at this
    split at this
    · rename_i hle; rw [hcap] at hle; omega
    · cases this
  have hlt : v.length * T.sizeof < 2 ^ 64 := by
    rw [← hD]
    exact lt_of_le_of_lt hle (Nat.mod_lt _ (by norm_num))
  have hn64 : n < 2 ^ 64 := by
    have : v.length ≤ v.length * T.sizeof := Nat.le_mul_of_pos_right _ hw0
    omega
  have hts : toSizeT n = v.length := by
    unfold toSizeT
    rw [Int.emod_eq_of_lt (by omega) hn64]
    omega
  have hsz : toSizeT n * T.sizeof % 2 ^ 64 = v.length * T.sizeof := by
    rw [hts]; exact Nat.mod_eq_of_lt hlt
  obtain ⟨hbytes, _⟩ := AltGPUVector.store_whole hst (by rw [hcap, hsz, hD])
  have hl1 : h1.bytes.length = v.length * T.sizeof := by rw [hbytes, hD]
  have hpos : v.length * T.sizeof ≠ 0 := by
    have : 0 < v.length := by omega
    exact Nat.ne_of_gt (Nat.mul_pos this hw0)
  have hhs : ManagedBuffer.HostSide
      { cpu_ptr := some h1, gpu_ptr := none, size := toSizeT n * T.sizeof % 2 ^ 64,
        host_dirty := true, device_dirty := false } :=
    ⟨rfl, ⟨h1, rfl, by rw [hl1, hsz]⟩, fun d hd => by cases hd⟩
  obtain ⟨b1, hs⟩ := ManagedBuffer.sync_hostSide_returns hhs ha hm
  obtain ⟨k1, k2, k3, k4, _⟩ := ManagedBuffer.sync_hostSide hhs hs
  simp only at k1 k2 k4
  have hclean := k4 (by rw [hsz]; exact hpos)
  have hs2 : ManagedBuffer.sync env2 b1 = .ok b1 := ManagedBuffer.sync_clean hclean k3.1
  have hiN : i.toNat < v.length := by omega
  have hread : readElem T.sizeof (some h1) i = .ok e := by
    unfold readElem Block.load
    simp only [hi0, if_true]
    have hb : i.toNat * T.sizeof + T.sizeof ≤ h1.bytes.length := by
      rw [hl1]
      calc i.toNat * T.sizeof + T.sizeof = (i.toNat + 1) * T.sizeof := by ring
        _ ≤ v.length * T.sizeof := Nat.mul_le_mul_right _ hiN
    rw [if_pos hb, hbytes, flatten_elem_uniform _ v helem _ e he]
  refine ⟨b1.getHostPtr, some { length_ := n, buffer := b1 },
    some { length_ := n, buffer := b1 }, ?_, ?_⟩
  · simp only [AltGPUVector.Dataptr, AltGPUVector.Get_some, hs, Bool.false_eq_true, if_false]
  · simp only [AltGPUVector.elt, AltGPUVector.Get_some, hs2, ManagedBuffer.getHostPtr, k1, hread]

/-- Witness of C10: `n = 5`, the values 1.0, 2.0, 3.0, 4.0, 5.0 and `i = 2`; `elt`
returns the bytes of 3.0. -/
theorem round_trip_host_witness :
    AltGPUVector.Construct Datatype.double envOk 5 = .ok doubleVec5New ∧
    AltGPUVector.hostStore doubleVec5New 0 roundTripValues.flatten = .ok doubleVec5 ∧
    ∃ p x2 x3, AltGPUVector.Dataptr envOk doubleVec5 false = .ok (p, x2) ∧
      AltGPUVector.elt Datatype.double envOk x2 2 = .ok ([0, 0, 0, 0, 0, 0, 8, 64], x3) :=
  ⟨rfl, rfl,
    round_trip_host Datatype.double envOk envOk envOk 5 2 roundTripValues
      [0, 0, 0, 0, 0, 0, 8, 64] doubleVec5New doubleVec5 (by decide) rfl (by decide)
      (by decide) (by decide) rfl rfl rfl rfl rfl⟩

/-! ## The contracts of the single operations -/

/-- C12 (`sync()` with nothing to reconcile): for every buffer state with `size == 0`, and
for every buffer state in which neither dirty flag is set, `sync()` returns the state
unchanged: same pointers and contents, same size, same flags.  It does so in every
environment, also one in which `malloc`, `cudaMalloc` and `cudaMemcpy` would fail, so
it neither allocates nor copies. -/
theorem sync_noop (env : Env) (b : ManagedBuffer)
    (h : b.size = 0 ∨ (b.host_dirty = false ∧ b.device_dirty = false)) :
    ManagedBuffer.sync env b = .ok b := by
  rcases h with hz | ⟨h1, h2⟩
  · unfold ManagedBuffer.sync
    rw [if_pos hz]
  · exact ManagedBuffer.sync_clean h1 h2

/-- Witness of C12: the synced buffer of the cross-side scenario, in an environment
where every allocation and copy would fail. -/
theorem sync_noop_witness :
    ManagedBuffer.sync { malloc := none, cudaMalloc := none, cudaMemcpy := false }
      crossSideSynced = .ok crossSideSynced :=
  sync_noop { malloc := none, cudaMalloc := none, cudaMemcpy := false } crossSideSynced
    (Or.inr ⟨rfl, rfl⟩)

/-- What `allocateHost(b)` does in terms of the state it is called in: a buffer with
`size != 0` makes it abort with "Buffer already allocated"; when the host allocation
succeeds it fails fatally if and only if `size != 0`, and otherwise it returns with
`size = b`, the host side allocated (a new block of `b` bytes if there was none),
`host_dirty = true`, `device_dirty = false` and the device pointer unchanged. -/
theorem allocateHost_by_size (env : Env) (b : Nat) (s : ManagedBuffer) :
    (s.size ≠ 0 → ManagedBuffer.allocateHost env b s = .error .abortAlreadyAllocated) ∧
    ((s.cpu_ptr.isSome = true ∨ env.malloc.isSome = true) →
      ((∃ e, ManagedBuffer.allocateHost env b s = .error e ∧ e.isAbort = true) ↔ s.size ≠ 0) ∧
      (s.size = 0 →
        ∃ s1, ManagedBuffer.allocateHost env b s = .ok s1 ∧ s1.size = b ∧ s1.hasHost = true ∧
          s1.host_dirty = true ∧ s1.device_dirty = false ∧ s1.gpu_ptr = s.gpu_ptr ∧
          (s.cpu_ptr = none → ∃ f, env.malloc = some f ∧ s1.cpu_ptr = some (f.block b)))) := by
  have hsized : s.size ≠ 0 →
      ManagedBuffer.allocateHost env b s = .error .abortAlreadyAllocated := by
    intro hz
    unfold ManagedBuffer.allocateHost
    rw [if_pos hz]
  have hfirst : (s.cpu_ptr.isSome = true ∨ env.malloc.isSome = true) → s.size = 0 →
      ∃ s1, ManagedBuffer.allocateHost env b s = .ok s1 ∧ s1.size = b ∧ s1.hasHost = true ∧
        s1.host_dirty = true ∧ s1.device_dirty = false ∧ s1.gpu_ptr = s.gpu_ptr ∧
        (s.cpu_ptr = none → ∃ f, env.malloc = some f ∧ s1.cpu_ptr = some (f.block b)) := by
    intro hok hz
    cases hc : s.cpu_ptr with
    | some h0 =>
      exact ⟨{ s with size := b, host_dirty := true, device_dirty := false },
        by simp [ManagedBuffer.allocateHost, hz, ManagedBuffer.createOnHost, hc], rfl,
        by simp [ManagedBuffer.hasHost, hc], rfl, rfl, rfl, fun h => by cases h⟩
    | none =>
      have hm : env.malloc.isSome = true := by
        rcases hok with h | h
        · rw [hc] at h; cases h
        · exact h
      obtain ⟨f, hf⟩ := Option.isSome_iff_exists.mp hm
      exact ⟨{ s with cpu_ptr := some (f.block b), size := b, host_dirty := true,
                      device_dirty := false },
        by simp [ManagedBuffer.allocateHost, hz, ManagedBuffer.createOnHost, hc, hf], rfl,
        by simp [ManagedBuffer.hasHost], rfl, rfl, rfl, fun _ => ⟨f, hf, rfl⟩⟩
  refine ⟨hsized, fun hok => ⟨⟨?_, fun hz => ⟨_, hsized hz, rfl⟩⟩, hfirst hok⟩⟩
  rintro ⟨e, he, _⟩ hz
  obtain ⟨s1, h1, _⟩ := hfirst hok hz
  rw [h1] at he
  cases he

/-- C15 (`allocateDevice` contract): for every buffer state `s` and byte count `b`, a size
that is fixed (`size != 0`) and differs from `b` makes `allocateDevice(b)` abort with
"Size mismatch"; when the device allocation succeeds (the device side exists or
`cudaMalloc` does not fail) the call fails fatally if and only if `size != 0` and
`size != b`, and otherwise it returns with `size = b`, the device side allocated (the
existing block if there was one, else a new block of `b` bytes), `device_dirty = true`,
`host_dirty = false`, and the host pointer and host contents unchanged. -/
theorem allocateDevice_contract (env : Env) (b : Nat) (s : ManagedBuffer) :
    (s.size ≠ 0 ∧ s.size ≠ b → ManagedBuffer.allocateDevice env b s = .error .abortSizeMismatch) ∧
    ((s.gpu_ptr.isSome = true ∨ env.cudaMalloc.isSome = true) →
      ((∃ e, ManagedBuffer.allocateDevice env b s = .error e ∧ e.isAbort = true) ↔
        (s.size ≠ 0 ∧ s.size ≠ b)) ∧
      (¬ (s.size ≠ 0 ∧ s.size ≠ b) →
        ∃ s1, ManagedBuffer.allocateDevice env b s = .ok s1 ∧ s1.size = b ∧
          s1.hasDevice = true ∧ s1.device_dirty = true ∧ s1.host_dirty = false ∧
          s1.cpu_ptr = s.cpu_ptr ∧
          (∀ d, s.gpu_ptr = some d → s1.gpu_ptr = some d) ∧
          (s.gpu_ptr = none → ∃ f, env.cudaMalloc = some f ∧ s1.gpu_ptr = some (f.block b)))) := by
  have hmis : s.size ≠ 0 ∧ s.size ≠ b →
      ManagedBuffer.allocateDevice env b s = .error .abortSizeMismatch := by
    intro hz
    unfold ManagedBuffer.allocateDevice
    rw [if_pos hz]
  have hfirst : (s.gpu_ptr.isSome = true ∨ env.cudaMalloc.isSome = true) →
      ¬ (s.size ≠ 0 ∧ s.size ≠ b) →
      ∃ s1, ManagedBuffer.allocateDevice env b s = .ok s1 ∧ s1.size = b ∧
        s1.hasDevice = true ∧ s1.device_dirty = true ∧ s1.host_dirty = false ∧
        s1.cpu_ptr = s.cpu_ptr ∧
        (∀ d, s.gpu_ptr = some d → s1.gpu_ptr = some d) ∧
        (s.gpu_ptr = none → ∃ f, env.cudaMalloc = some f ∧ s1.gpu_ptr = some (f.block b)) := by
    intro hok hz
    have hs0 : (if s.size = 0 then { s with size := b } else s) = { s with size := b } := by
      by_cases h0 : s.size = 0
      · simp [h0]
      · have hb : s.size = b := by
          by_contra hne
          exact hz ⟨h0, hne⟩
        simp only [h0, if_false]
        cases s
        simp only at hb
        subst hb
        rfl
    cases hc : s.gpu_ptr with
    | some d0 =>
      refine ⟨{ s with size := b, device_dirty := true, host_dirty := false }, ?_, rfl, ?_,
        rfl, rfl, rfl, ?_, ?_⟩
      · unfold ManagedBuffer.allocateDevice ManagedBuffer.createOnDevice
        rw [if_neg hz, hs0]
        simp only [hc]
      · simp [ManagedBuffer.hasDevice, hc]
      · intro d hd
        simp only [hc]
        exact hd
      · intro h; cases h
    | none =>
      have hm : env.cudaMalloc.isSome = true := by
        rcases hok with h | h
        · rw [hc] at h; cases h
        · exact h
      obtain ⟨f, hf⟩ := Option.isSome_iff_exists.mp hm
      refine ⟨{ s with gpu_ptr := some (f.block b), size := b, device_dirty := true,
                       host_dirty := false }, ?_, rfl, ?_, rfl, rfl, rfl, ?_, ?_⟩
      · unfold ManagedBuffer.allocateDevice ManagedBuffer.createOnDevice
        rw [if_neg hz, hs0]
        simp only [hc, hf]
      · simp [ManagedBuffer.hasDevice]
      · intro d hd; cases hd
      · intro _; exact ⟨f, hf, rfl⟩
  refine ⟨hmis, fun hok => ⟨⟨?_, fun hz => ⟨_, hmis hz, rfl⟩⟩, hfirst hok⟩⟩
  rintro ⟨e, he, _⟩
  by_contra hz
  obtain ⟨s1, h1, _⟩ := hfirst hok hz
  rw [h1] at he
  cases he

/-- Witness of C15: `allocateDevice(12)` on the host-only buffer of size 12 returns in
`envOk`; `allocateDevice(8)` on the buffer of the cross-side scenario (size 12) aborts. -/
theorem allocateDevice_contract_witness :
    (∃ s1, ManagedBuffer.allocateDevice envOk 12
        { cpu_ptr := some { addr := 4096, bytes := List.replicate 12 0 }, size := 12,
          host_dirty := true } = .ok s1 ∧
      s1.size = 12 ∧ s1.hasDevice = true ∧ s1.device_dirty = true ∧ s1.host_dirty = false ∧
      s1.cpu_ptr = some { addr := 4096, bytes := List.replicate 12 0 }) ∧
    ManagedBuffer.allocateDevice envOk 8 crossSideState = .error .abortSizeMismatch :=
  have h := ((allocateDevice_contract envOk 12
      { cpu_ptr := some { addr := 4096, bytes := List.replicate 12 0 }, size := 12,
        host_dirty := true }).2 (Or.inr rfl)).2 (by decide)
  ⟨h.imp fun _ hs => ⟨hs.1, hs.2.1, hs.2.2.1, hs.2.2.2.1, hs.2.2.2.2.1, hs.2.2.2.2.2.1⟩,
    (allocateDevice_contract envOk 8 crossSideState).1 (by decide)⟩

/-- C16 (`markHost` / `markDevice` contract): for every buffer state, `markHost()` (resp.
`markDevice()`) fails fatally if and only if `size == 0`; otherwise it returns with
`host_dirty = true`, `device_dirty = false` (resp. `device_dirty = true`,
`host_dirty = false`) and with both pointers, both sides' contents and the size
unchanged. -/
theorem mark_contract (s : ManagedBuffer) :
    (((∃ e, ManagedBuffer.markHost s = .error e ∧ e.isAbort = true) ↔ s.size = 0) ∧
      (s.size ≠ 0 →
        ∃ s1, ManagedBuffer.markHost s = .ok s1 ∧ s1.host_dirty = true ∧
          s1.device_dirty = false ∧ s1.cpu_ptr = s.cpu_ptr ∧ s1.gpu_ptr = s.gpu_ptr ∧
          s1.size = s.size)) ∧
    (((∃ e, ManagedBuffer.markDevice s = .error e ∧ e.isAbort = true) ↔ s.size = 0) ∧
      (s.size ≠ 0 →
        ∃ s1, ManagedBuffer.markDevice s = .ok s1 ∧ s1.device_dirty = true ∧
          s1.host_dirty = false ∧ s1.cpu_ptr = s.cpu_ptr ∧ s1.gpu_ptr = s.gpu_ptr ∧
          s1.size = s.size)) := by
  by_cases hz : s.size = 0
  · simp [ManagedBuffer.markHost, ManagedBuffer.markDevice, hz, Err.isAbort]
  · simp [ManagedBuffer.markHost, ManagedBuffer.markDevice, hz]

/-- Witness of C16: `markHost()` returns on the buffer of the cross-side scenario and
makes the host the newer side; on the empty buffer it aborts. -/
theorem mark_contract_witness :
    (∃ s1, ManagedBuffer.markHost crossSideState = .ok s1 ∧ s1.host_dirty = true ∧
      s1.device_dirty = false ∧ s1.cpu_ptr = crossSideState.cpu_ptr ∧
      s1.gpu_ptr = crossSideState.gpu_ptr ∧ s1.size = crossSideState.size) ∧
    ∃ e, ManagedBuffer.markHost ManagedBuffer.empty = .error e ∧ e.isAbort = true :=
  ⟨(mark_contract crossSideState).1.2 (by decide), (mark_contract ManagedBuffer.empty).1.1.mpr rfl⟩

/-- C19 (move semantics): for every pair of buffer states `dst`, `src`: move
construction from `src` and move assignment of `src` to `dst` yield a destination whose
host pointer, device pointer, size and dirty flags are those of `src` before the move
and leave `src` in the empty state; move assignment releases exactly the allocations
`dst` had; self move assignment (same address) leaves the memory unchanged and
releases nothing; and afterwards no block is owned by both buffers. -/
theorem move_semantics (dst src : ManagedBuffer) :
    ((ManagedBuffer.moveConstruct src).1.cpu_ptr = src.cpu_ptr ∧
      (ManagedBuffer.moveConstruct src).1.gpu_ptr = src.gpu_ptr ∧
      (ManagedBuffer.moveConstruct src).1.size = src.size ∧
      (ManagedBuffer.moveConstruct src).1.host_dirty = src.host_dirty ∧
      (ManagedBuffer.moveConstruct src).1.device_dirty = src.device_dirty ∧
      (ManagedBuffer.moveConstruct src).2 = ManagedBuffer.empty) ∧
    ((ManagedBuffer.moveAssign dst src).1.cpu_ptr = src.cpu_ptr ∧
      (ManagedBuffer.moveAssign dst src).1.gpu_ptr = src.gpu_ptr ∧
      (ManagedBuffer.moveAssign dst src).1.size = src.size ∧
      (ManagedBuffer.moveAssign dst src).1.host_dirty = src.host_dirty ∧
      (ManagedBuffer.moveAssign dst src).1.device_dirty = src.device_dirty ∧
      (ManagedBuffer.moveAssign dst src).2.1 = ManagedBuffer.empty ∧
      (ManagedBuffer.moveAssign dst src).2.2 = (ManagedBuffer.freeAll dst).2) ∧
    (ManagedBuffer.moveAssignSelf dst = dst ∧
      ∀ (mem : Nat → ManagedBuffer) (a : Nat), ManagedBuffer.moveAssignAt mem a a = (mem, [])) ∧
    (∀ (mem : Nat → ManagedBuffer) (a b : Nat), a ≠ b → mem a = dst → mem b = src →
      (ManagedBuffer.moveAssignAt mem a b).1 a = src ∧
      (ManagedBuffer.moveAssignAt mem a b).1 b = ManagedBuffer.empty ∧
      (ManagedBuffer.moveAssignAt mem a b).2 = (ManagedBuffer.freeAll dst).2 ∧
      ∀ c, c ≠ a → c ≠ b → (ManagedBuffer.moveAssignAt mem a b).1 c = mem c) ∧
    ((∀ blk, blk ∈ (ManagedBuffer.moveConstruct src).1.owned →
        blk ∉ (ManagedBuffer.moveConstruct src).2.owned) ∧
      (∀ blk, blk ∈ (ManagedBuffer.moveAssign dst src).1.owned →
        blk ∉ (ManagedBuffer.moveAssign dst src).2.1.owned)) := by
  refine ⟨⟨rfl, rfl, rfl, rfl, rfl, rfl⟩, ⟨rfl, rfl, rfl, rfl, rfl, rfl, rfl⟩, ⟨rfl, ?_⟩, ?_, ?_, ?_⟩
  · intro mem a
    simp [ManagedBuffer.moveAssignAt]
  · intro mem a b hab ha hb
    have hba : b ≠ a := fun h => hab h.symm
    refine ⟨?_, ?_, ?_, ?_⟩
    · simp only [ManagedBuffer.moveAssignAt, ne_eq, hab, not_false_eq_true, if_true,
        Function.update, hba, dite_false, dite_true, ha, hb]
      cases src
      rfl
    · simp [ManagedBuffer.moveAssignAt, hab, Function.update, ManagedBuffer.moveAssign,
        ManagedBuffer.empty]
    · simp [ManagedBuffer.moveAssignAt, hab, ManagedBuffer.moveAssign, ha]
    · intro c hca hcb
      simp [ManagedBuffer.moveAssignAt, hab, Function.update, hca, hcb]
  · intro blk _
    simp [ManagedBuffer.moveConstruct, ManagedBuffer.owned]
  · intro blk _
    simp [ManagedBuffer.moveAssign, ManagedBuffer.owned]

/-- Witness of C19: the buffer of the cross-side scenario is move-assigned to the
host-only buffer `zeroHostState` stored at another address. -/
theorem move_semantics_witness :
    (ManagedBuffer.moveAssignAt (fun k => if k = 0 then zeroHostState else crossSideState) 0 1).1 0
        = crossSideState ∧
    (ManagedBuffer.moveAssignAt (fun k => if k = 0 then zeroHostState else crossSideState) 0 1).1 1
        = ManagedBuffer.empty ∧
    (ManagedBuffer.moveAssignAt (fun k => if k = 0 then zeroHostState else crossSideState) 0 1).2
        = [Release.free 4096] :=
  have h := (move_semantics zeroHostState crossSideState).2.2.2.1
    (fun k => if k = 0 then zeroHostState else crossSideState) 0 1 (by decide) rfl rfl
  ⟨h.1, h.2.1, h.2.2.1⟩

/-! ## Further claims about `AltGPUVector` -/

theorem toSizeT_zero : toSizeT 0 = 0 := by decide

/-- A returning `sync()` never changes `size`. -/
theorem sync_size {env : Env} {b b1 : ManagedBuffer} (h : ManagedBuffer.sync env b = .ok b1) :
    b1.size = b.size := by
  by_cases hz : b.size = 0
  · unfold ManagedBuffer.sync at h
    rw [if_pos hz] at h
    cases h; rfl
  · by_cases hn : b.hostNewer = true
    · obtain ⟨_, _, _, _, h4, _⟩ := ManagedBuffer.sync_hostNewer_post hz hn h
      exact h4
    · by_cases hd : b.deviceNewer = true
      · obtain ⟨_, _, _, _, h4, _⟩ := ManagedBuffer.sync_deviceNewer_post hz hd h
        exact h4
      · unfold ManagedBuffer.sync at h
        rw [if_neg hz, if_neg hn, if_neg hd] at h
        cases h; rfl

/-- C13 (zero-length vector): after `Construct(0)` the buffer has size 0, `sync()` returns
it unchanged in every environment, and for every requested count `k >= 0`
`Get_region(x, 0, k, out)` returns 0, asks `memcpy` for 0 bytes, and leaves `out` and
the handle as they were. -/
theorem zero_length_vector (T : Datatype) (env0 : Env) (x : ExternalPtr)
    (hc : AltGPUVector.Construct T env0 0 = .ok x) :
    ∃ v, x = some v ∧ v.length_ = 0 ∧ v.buffer.size = 0 ∧
      (∀ env, ManagedBuffer.sync env v.buffer = .ok v.buffer) ∧
      (∀ env (k : Int) (out : List Byte), 0 ≤ k →
        AltGPUVector.Get_region T env x 0 k out = .ok (0, out, x) ∧
        toSizeT (AltGPUVector.regionNcopy v.length_ 0 k) * T.sizeof % 2 ^ 64 = 0) := by
  obtain ⟨f, _, rfl⟩ := AltGPUVector.Construct_inv hc
  have hsz : toSizeT 0 * T.sizeof % 2 ^ 64 = 0 := by rw [toSizeT_zero]; simp
  rw [hsz]
  have hsync : ∀ env, ManagedBuffer.sync env
      { cpu_ptr := some (f.block 0), gpu_ptr := none, size := 0, host_dirty := true,
        device_dirty := false } =
      .ok { cpu_ptr := some (f.block 0), gpu_ptr := none, size := 0, host_dirty := true,
            device_dirty := false } :=
    fun env => by
      unfold ManagedBuffer.sync
      rw [if_pos rfl]
  refine ⟨_, rfl, rfl, rfl, hsync, fun env k out hk => ?_⟩
  have hn : AltGPUVector.regionNcopy 0 0 k = 0 := by
    rw [regionNcopy_eq_min 0 0 k (le_refl _) (le_refl _) (by norm_num)]
    simpa using hk
  refine ⟨?_, by simp only [hn, toSizeT_zero]; simp⟩
  simp only [AltGPUVector.Get_region, AltGPUVector.Get_some, hsync env, hn, toSizeT_zero,
    ManagedBuffer.getHostPtr]
  simp [memcpyOut]

/-- Witness of C13: `Construct(0)` of a `double` vector in `envOk`, then a request for
10 elements. -/
theorem zero_length_vector_witness :
    AltGPUVector.Construct Datatype.double envOk 0 = .ok doubleVec0 ∧
    AltGPUVector.Get_region Datatype.double envOk doubleVec0 0 10 [7, 7, 7] =
      .ok (0, [7, 7, 7], doubleVec0) :=
  ⟨rfl,
    (zero_length_vector Datatype.double envOk doubleVec0 rfl).elim fun _ h =>
      (h.2.2.2.2 envOk 10 [7, 7, 7] (by decide)).1⟩

/-- C11, as stated, fails on the code: for `n = 5` (`double`) the `sync()` performed by
`Dataptr(x, FALSE)` directly after `Construct(5)` changes the buffer: it allocates the
device side, copies the host bytes to it and clears `host_dirty`.  Hence it is not the
case that this `sync()` leaves the buffer state unchanged for every `n > 0`. -/
theorem round_trip_sync_not_noop :
    AltGPUVector.Construct Datatype.double envOk 5 = .ok doubleVec5New ∧
    AltGPUVector.Dataptr envOk doubleVec5New false =
      .ok (some { addr := 4096, bytes := List.replicate 40 0 }, doubleVec5Synced) ∧
    doubleVec5Synced ≠ doubleVec5New ∧
    ¬ (∀ (T : Datatype) (env0 env1 : Env) (n : Int) (v : AltGPUVector) (b1 : ManagedBuffer),
        0 < n → AltGPUVector.Construct T env0 n = .ok (some v) →
        ManagedBuffer.sync env1 v.buffer = .ok b1 → b1 = v.buffer) :=
  ⟨rfl, rfl, by decide, fun h =>
    absurd
      (h Datatype.double envOk envOk 5
        { length_ := 5
          buffer := { cpu_ptr := some { addr := 4096, bytes := List.replicate 40 0 }
                      size := 40
                      host_dirty := true } }
        { cpu_ptr := some { addr := 4096, bytes := List.replicate 40 0 }
          gpu_ptr := some { addr := 8192, bytes := List.replicate 40 0 }
          size := 40
          host_dirty := false
          device_dirty := false }
        (by decide) rfl rfl)
      (by decide)⟩

/-- C11, amended: for every length `n > 0` whose byte count `n * sizeof(Datatype)` fits
in `size_t`, the `sync()` performed by `Dataptr(x, FALSE)` directly after `Construct(n)`
is not a no-op.  The constructor left the host side dirty and the device side absent;
the `sync()` (with `cudaMalloc` and `cudaMemcpy` not failing) allocates the device
side, copies the host bytes to it and clears `host_dirty`; the host pointer, the host
contents and the size stay as they were, and `Dataptr` returns the host pointer. -/
theorem round_trip_sync_copies (T : Datatype) (env0 env1 : Env) (n : Int) (x : ExternalPtr)
    (hn : 0 < n) (hfit : n * T.sizeof < 2 ^ 64)
    (hc : AltGPUVector.Construct T env0 n = .ok x)
    (ha : env1.cudaMalloc.isSome = true) (hm : env1.cudaMemcpy = true) :
    ∃ v h g b1, x = some v ∧ v.buffer.cpu_ptr = some h ∧ v.buffer.gpu_ptr = none ∧
      v.buffer.host_dirty = true ∧ v.buffer.device_dirty = false ∧
      (v.buffer.size : Int) = n * T.sizeof ∧ env1.cudaMalloc = some g ∧
      ManagedBuffer.sync env1 v.buffer = .ok b1 ∧
      AltGPUVector.Dataptr env1 x false = .ok (some h, some { v with buffer := b1 }) ∧
      b1 = { cpu_ptr := some h, gpu_ptr := some { addr := g.addr, bytes := h.bytes },
             size := v.buffer.size, host_dirty := false, device_dirty := false } ∧
      b1 ≠ v.buffer := by
  obtain ⟨f, _, rfl⟩ := AltGPUVector.Construct_inv hc
  obtain ⟨g, hg⟩ := Option.isSome_iff_exists.mp ha
  obtain ⟨k, rfl⟩ := Int.eq_ofNat_of_zero_le (le_of_lt hn)
  have hw := sizeof_pos T
  have hk0 : 0 < k := by exact_mod_cast hn
  have hfit1 : k * T.sizeof < 2 ^ 64 := by exact_mod_cast hfit
  have hkk : k ≤ k * T.sizeof := Nat.le_mul_of_pos_right k hw
  have hts : toSizeT (k : Int) = k := by
    unfold toSizeT
    rw [Int.emod_eq_of_lt (by omega) (by omega)]
    simp
  have hsz : toSizeT (k : Int) * T.sizeof % 2 ^ 64 = k * T.sizeof := by
    rw [hts]; exact Nat.mod_eq_of_lt hfit1
  have hpos : k * T.sizeof ≠ 0 := Nat.ne_of_gt (Nat.mul_pos hk0 hw)
  rw [hsz]
  have hsync : ManagedBuffer.sync env1
      { cpu_ptr := some (f.block (k * T.sizeof)), gpu_ptr := none, size := k * T.sizeof,
        host_dirty := true, device_dirty := false } =
      .ok { cpu_ptr := some (f.block (k * T.sizeof)),
            gpu_ptr := some { addr := g.addr, bytes := (f.block (k * T.sizeof)).bytes },
            size := k * T.sizeof, host_dirty := false, device_dirty := false } := by
    simp only [ManagedBuffer.sync, hpos, ManagedBuffer.hostNewer, ManagedBuffer.createOnDevice, hg,
      cudaMemcpy, Fresh.block, hm, List.length_map, List.length_range, le_refl, and_self,
      if_true, if_false, Bool.not_false, Bool.and_self]
    rw [List.take_of_length_le (by simp), List.drop_of_length_le (by simp), List.append_nil]
  refine ⟨_, f.block (k * T.sizeof), g, _, rfl, rfl, rfl, rfl, rfl, ?_, hg, hsync, ?_, rfl, ?_⟩
  · push_cast; rfl
  · simp only [AltGPUVector.Dataptr, AltGPUVector.Get_some, hsync, Bool.false_eq_true,
      if_false, ManagedBuffer.getHostPtr]
  · intro h
    have := congrArg ManagedBuffer.host_dirty h
    simp at this

/-- Witness of the amended C11: `Construct(5)` of a `double` vector in `envOk`. -/
theorem round_trip_sync_copies_witness :
    ∃ v h g b1, doubleVec5New = some v ∧ v.buffer.cpu_ptr = some h ∧ v.buffer.gpu_ptr = none ∧
      v.buffer.host_dirty = true ∧ v.buffer.device_dirty = false ∧
      (v.buffer.size : Int) = 5 * Datatype.double.sizeof ∧ envOk.cudaMalloc = some g ∧
      ManagedBuffer.sync envOk v.buffer = .ok b1 ∧
      AltGPUVector.Dataptr envOk doubleVec5New false = .ok (some h, some { v with buffer := b1 }) ∧
      b1 = { cpu_ptr := some h, gpu_ptr := some { addr := g.addr, bytes := h.bytes },
             size := v.buffer.size, host_dirty := false, device_dirty := false } ∧
      b1 ≠ v.buffer :=
  round_trip_sync_copies Datatype.double envOk envOk 5 doubleVec5New (by decide) (by decide)
    rfl rfl rfl

/-- One returning accessor call leaves `length_` and the size of the buffer as they
were. -/
theorem access_frame {T : Datatype} {env : Env} {a : AltGPUVector.Access} {v : AltGPUVector}
    {x1 : ExternalPtr} (h : AltGPUVector.access T env a (some v) = .ok x1) :
    ∃ v1, x1 = some v1 ∧ v1.length_ = v.length_ ∧ v1.buffer.size = v.buffer.size := by
  cases a with
  | length =>
    simp only [AltGPUVector.access, AltGPUVector.Length, AltGPUVector.Get_some, Except.map,
      Except.ok.injEq] at h
    exact ⟨v, h.symm, rfl, rfl⟩
  | inspect =>
    simp only [AltGPUVector.access, AltGPUVector.Inspect, AltGPUVector.Get_some, Except.map,
      Except.ok.injEq] at h
    exact ⟨v, h.symm, rfl, rfl⟩
  | dataptrOrNull =>
    simp only [AltGPUVector.access] at h
    cases hr : AltGPUVector.Dataptr_or_null env (some v) with
    | error e => rw [hr] at h; cases h
    | ok r =>
      obtain ⟨p, x2⟩ := r
      rw [hr] at h
      simp only [Except.map, Except.ok.injEq] at h
      subst h
      obtain ⟨v0, b1, hv0, hs, _, hx⟩ := AltGPUVector.Dataptr_or_null_inv hr
      cases hv0
      exact ⟨{ v with buffer := b1 }, hx, rfl, sync_size hs⟩
  | dataptr w =>
    simp only [AltGPUVector.access] at h
    cases hr : AltGPUVector.Dataptr env (some v) w with
    | error e => rw [hr] at h; cases h
    | ok r =>
      obtain ⟨p, x2⟩ := r
      rw [hr] at h
      simp only [Except.map, Except.ok.injEq] at h
      subst h
      obtain ⟨v0, b1, hv0, hs, hcase⟩ := AltGPUVector.Dataptr_inv hr
      cases hv0
      rcases hcase with ⟨_, _, hx⟩ | ⟨_, b2, hmk, _, hx⟩
      · exact ⟨{ v with buffer := b1 }, hx, rfl, sync_size hs⟩
      · refine ⟨{ v with buffer := b2 }, hx, rfl, ?_⟩
        unfold ManagedBuffer.markHost at hmk
        split at hmk
        · cases hmk
        · cases hmk
          exact (sync_size hs : b1.size = v.buffer.size)
  | elt i =>
    simp only [AltGPUVector.access] at h
    cases hr : AltGPUVector.elt T env (some v) i with
    | error e => rw [hr] at h; cases h
    | ok r =>
      obtain ⟨val, x2⟩ := r
      rw [hr] at h
      simp only [Except.map, Except.ok.injEq] at h
      subst h
      obtain ⟨v0, b1, hv0, hs, _, hx⟩ := AltGPUVector.elt_inv hr
      cases hv0
      exact ⟨{ v with buffer := b1 }, hx, rfl, sync_size hs⟩
  | getRegion start size out =>
    simp only [AltGPUVector.access] at h
    cases hr : AltGPUVector.Get_region T env (some v) start size out with
    | error e => rw [hr] at h; cases h
    | ok r =>
      obtain ⟨n, out1, x2⟩ := r
      rw [hr] at h
      simp only [Except.map, Except.ok.injEq] at h
      subst h
      obtain ⟨v0, b1, hv0, hs, _, _, hx⟩ := AltGPUVector.Get_region_inv hr
      cases hv0
      exact ⟨{ v with buffer := b1 }, hx, rfl, sync_size hs⟩

/-- A returning sequence of accessor calls leaves `length_` and the size of the buffer
as they were. -/
theorem accessAll_frame {T : Datatype} {calls : List (Env × AltGPUVector.Access)}
    {v : AltGPUVector} {x1 : ExternalPtr}
    (h : AltGPUVector.accessAll T calls (some v) = .ok x1) :
    ∃ v1, x1 = some v1 ∧ v1.length_ = v.length_ ∧ v1.buffer.size = v.buffer.size := by
  induction calls generalizing v with
  | nil =>
    simp only [AltGPUVector.accessAll, Except.ok.injEq] at h
    exact ⟨v, h.symm, rfl, rfl⟩
  | cons ea rest ih =>
    obtain ⟨env, a⟩ := ea
    simp only [AltGPUVector.accessAll] at h
    split at h
    · cases h
    · rename_i x2 hstep
      obtain ⟨v2, rfl, hl2, hs2⟩ := access_frame hstep
      obtain ⟨v1, hx1, hl1, hs1⟩ := ih h
      exact ⟨v1, hx1, by rw [hl1, hl2], by rw [hs1, hs2]⟩

/-- C18, as stated, fails on the code: `Construct(2^61)` for `double` (in `envOk`) returns
a vector of length `2^61` whose buffer has size 0, not `2^61 * 8`.  Hence it is not the
case that the size equals `n * sizeof(Datatype)` as an exact integer for every
`R_xlen_t` value `n`. -/
theorem vector_size_wraps :
    IsXlen (2 ^ 61) ∧
    AltGPUVector.Construct Datatype.double envOk (2 ^ 61) = .ok doubleVecWrapped ∧
    ¬ (∀ (T : Datatype) (env : Env) (n : Int) (v : AltGPUVector), IsXlen n →
        AltGPUVector.Construct T env n = .ok (some v) →
        (v.buffer.size : Int) = n * T.sizeof) :=
  ⟨by decide, rfl, fun h =>
    absurd
      (h Datatype.double envOk (2 ^ 61)
        { length_ := 2 ^ 61
          buffer := { cpu_ptr := some { addr := 4096, bytes := [] }, size := 0,
                      host_dirty := true } }
        (by decide) rfl)
      (by decide)⟩

/-- C18, amended: for every length `n` passed to `Construct` and either element type, the
size of the buffer right after construction is
`static_cast<size_t>(n) * sizeof(Datatype)` computed modulo `2^64`, which is
`n * sizeof(Datatype)` as an exact integer when `0 <= n` and `n * sizeof(Datatype) < 2^64`;
after every returning sequence of `Length`, `elt`, `Get_region`, `Dataptr`,
`Dataptr_or_null` and `Inspect` calls the size is still that value, and `length_` is
still `n`. -/
theorem vector_size_invariant (T : Datatype) (env0 : Env) (n : Int) (x x1 : ExternalPtr)
    (calls : List (Env × AltGPUVector.Access))
    (hc : AltGPUVector.Construct T env0 n = .ok x)
    (ha : AltGPUVector.accessAll T calls x = .ok x1) :
    ∃ v v1, x = some v ∧ x1 = some v1 ∧ v.length_ = n ∧ v1.length_ = n ∧
      v.buffer.size = toSizeT n * T.sizeof % 2 ^ 64 ∧
      v1.buffer.size = toSizeT n * T.sizeof % 2 ^ 64 ∧
      (0 ≤ n → n * T.sizeof < 2 ^ 64 →
        (v.buffer.size : Int) = n * T.sizeof ∧ (v1.buffer.size : Int) = n * T.sizeof) := by
  obtain ⟨f, _, rfl⟩ := AltGPUVector.Construct_inv hc
  obtain ⟨v1, rfl, hl, hs⟩ := accessAll_frame ha
  simp only at hl hs
  refine ⟨_, v1, rfl, rfl, rfl, hl, rfl, hs, fun h0 hfit => ?_⟩
  obtain ⟨k, rfl⟩ := Int.eq_ofNat_of_zero_le h0
  have hw := sizeof_pos T
  have hfit1 : k * T.sizeof < 2 ^ 64 := by exact_mod_cast hfit
  have hkk : k ≤ k * T.sizeof := Nat.le_mul_of_pos_right k hw
  have hts : toSizeT (k : Int) = k := by
    unfold toSizeT
    rw [Int.emod_eq_of_lt (by omega) (by omega)]
    simp
  have hsz : toSizeT (k : Int) * T.sizeof % 2 ^ 64 = k * T.sizeof := by
    rw [hts]; exact Nat.mod_eq_of_lt hfit1
  rw [hs]
  simp only [hsz]
  push_cast
  exact ⟨rfl, rfl⟩

/-- Witness of the amended C18: `Construct(3)` of an `int` vector, then `sampleCalls`. -/
theorem vector_size_invariant_witness :
    ∃ v v1, intVec3New = some v ∧ intVec3Accessed = some v1 ∧ v.length_ = 3 ∧ v1.length_ = 3 ∧
      v.buffer.size = toSizeT 3 * Datatype.int.sizeof % 2 ^ 64 ∧
      v1.buffer.size = toSizeT 3 * Datatype.int.sizeof % 2 ^ 64 ∧
      ((0 : Int) ≤ 3 → (3 : Int) * Datatype.int.sizeof < 2 ^ 64 →
        (v.buffer.size : Int) = 3 * Datatype.int.sizeof ∧
        (v1.buffer.size : Int) = 3 * Datatype.int.sizeof) :=
  vector_size_invariant Datatype.int envOk 3 intVec3New intVec3Accessed sampleCalls rfl rfl

/-! ## Reachable states under side conditions -/

namespace ManagedBuffer

theorem reachable_of_reachableBy {P : Op → ManagedBuffer → Prop} {b : ManagedBuffer}
    (h : ReachableBy P b) : Reachable b := by
  induction h with
  | init => exact Reachable.init
  | call env op _ _ hs ih => exact Reachable.call env op ih hs

theorem reachableBy_of_run {P : Op → ManagedBuffer → Prop} {ops : List (Env × Op)}
    {b b1 : ManagedBuffer} (hP : ∀ eo ∈ ops, ∀ s, P eo.2 s) (hb : ReachableBy P b)
    (h : run ops b = .ok b1) : ReachableBy P b1 := by
  induction ops generalizing b with
  | nil =>
    simp only [run, Except.ok.injEq] at h
    exact h ▸ hb
  | cons eo rest ih =>
    obtain ⟨env, op⟩ := eo
    simp only [run] at h
    split at h
    · cases h
    · rename_i b2 hs
      exact ih (fun e he s => hP e (List.mem_cons_of_mem _ he) s)
        (ReachableBy.call env op hb (hP (env, op) (List.mem_cons_self _ _) b) hs) h

theorem exact_empty : Exact empty := by
  refine ⟨?_, ?_, fun _ => ⟨rfl, rfl⟩⟩
  · intro h hh; cases hh
  · intro d hd; cases hd

theorem exact_allocateHost {env : Env} {n : Nat} {b b1 : ManagedBuffer} (hn : n ≠ 0)
    (he : Exact b) (h : allocateHost env n b = .ok b1) : Exact b1 := by
  unfold allocateHost at h
  split at h
  · cases h
  · rename_i hz
    have hz0 : b.size = 0 := by simpa using hz
    obtain ⟨hc0, hg0⟩ := he.2.2 hz0
    split at h
    · cases h
    · rename_i b2 hc
      cases h
      obtain ⟨hg, hs, _, _, hp⟩ := inv_createOnHost hc
      simp only at hg hs hp
      refine ⟨?_, ?_, ?_⟩
      · intro h0 hh0
        simp only at hh0
        rcases hp with ⟨_, hne⟩ | ⟨_, f, _, hp1⟩
        · exact absurd hc0 hne
        · rw [hp1] at hh0
          cases hh0
          simp [Fresh.block, hs]
      · intro d hd
        simp only [hg, hg0] at hd
        cases hd
      · intro hz1
        simp only [hs] at hz1
        exact absurd hz1 hn

theorem exact_allocateDevice {env : Env} {n : Nat} {b b1 : ManagedBuffer} (hn : n ≠ 0)
    (he : Exact b) (h : allocateDevice env n b = .ok b1) : Exact b1 := by
  unfold allocateDevice at h
  split at h
  · cases h
  · rename_i hz
    split at h
    · cases h
    · rename_i b2 hc
      cases h
      obtain ⟨hcpu, hs, _, _, hp⟩ := inv_createOnDevice hc
      by_cases hz0 : b.size = 0
      · obtain ⟨hc0, hg0⟩ := he.2.2 hz0
        simp only [hz0, if_true] at hcpu hs hp
        refine ⟨?_, ?_, ?_⟩
        · intro h0 hh0
          simp only [hcpu, hc0] at hh0
          cases hh0
        · intro d hd
          simp only at hd
          rcases hp with ⟨_, hne⟩ | ⟨_, f, _, hp1⟩
          · exact absurd hg0 hne
          · rw [hp1] at hd
            cases hd
            simp [Fresh.block, hs]
        · intro hz1
          simp only [hs] at hz1
          exact absurd hz1 hn
      · simp only [hz0, if_false] at hcpu hs hp
        refine ⟨?_, ?_, ?_⟩
        · intro h0 hh0
          simp only [hcpu] at hh0
          simp only [hs]
          exact he.1 h0 hh0
        · intro d hd
          simp only at hd
          simp only [hs]
          rcases hp with ⟨hp1, _⟩ | ⟨_, f, _, hp1⟩
          · rw [hp1] at hd
            exact he.2.1 d hd
          · rw [hp1] at hd
            cases hd
            simp [Fresh.block]
        · intro hz1
          simp only [hs] at hz1
          exact absurd hz1 hz0

theorem exact_mark {b b1 : ManagedBuffer} (he : Exact b)
    (h : markHost b = .ok b1 ∨ markDevice b = .ok b1) : Exact b1 := by
  rcases h with h | h
  · unfold markHost at h
    split at h
    · cases h
    · cases h; exact he
  · unfold markDevice at h
    split at h
    · cases h
    · cases h; exact he

theorem exact_sync {env : Env} {b b1 : ManagedBuffer} (hi : Inv b) (he : Exact b)
    (h : sync env b = .ok b1) : Exact b1 := by
  have hi1 := inv_sync hi h
  by_cases hz : b.size = 0
  · unfold sync at h
    rw [if_pos hz] at h
    cases h; exact he
  · by_cases hn : b.hostNewer = true
    · obtain ⟨c, h1, h2, h3, h4, _, _⟩ := sync_hostNewer_post hz hn h
      refine ⟨?_, ?_, fun hz1 => absurd (h4 ▸ hz1) hz⟩
      · intro h0 hh0
        rw [h3] at hh0
        rw [h4]
        exact he.1 h0 hh0
      · intro d hd
        cases hc : b.cpu_ptr with
        | none => simp [hostContents, hc] at h1
        | some h0 =>
          have hl := he.1 h0 hc
          simp only [hostContents, hc, Option.map_some', Option.some.injEq] at h1
          simp only [deviceContents, hd, Option.map_some', Option.some.injEq] at h2
          have hlen : (d.bytes.take b1.size).length = (h0.bytes.take b.size).length := by
            rw [h2, h1]
          simp only [List.length_take] at hlen
          rcases hi1.devCap d hd with hcap | hcap <;> omega
    · by_cases hd : b.deviceNewer = true
      · obtain ⟨c, h1, h2, h3, h4, _, _⟩ := sync_deviceNewer_post hz hd h
        refine ⟨?_, ?_, fun hz1 => absurd (h4 ▸ hz1) hz⟩
        · intro h0 hh0
          cases hc : b.gpu_ptr with
          | none => simp [deviceContents, hc] at h1
          | some d0 =>
            have hl := he.2.1 d0 hc
            simp only [deviceContents, hc, Option.map_some', Option.some.injEq] at h1
            simp only [hostContents, hh0, Option.map_some', Option.some.injEq] at h2
            have hlen : (h0.bytes.take b1.size).length = (d0.bytes.take b.size).length := by
              rw [h2, h1]
            simp only [List.length_take] at hlen
            rcases hi1.hostCap h0 hh0 with hcap | hcap <;> omega
        · intro d hd0
          rw [h3] at hd0
          rw [h4]
          exact he.2.1 d hd0
      · unfold sync at h
        rw [if_neg hz, if_neg hn, if_neg hd] at h
        cases h; exact he

theorem exact_hostWrite {off : Nat} {data : List Byte} {b b1 : ManagedBuffer} (he : Exact b)
    (h : hostWrite off data b = .ok b1) : Exact b1 := by
  unfold hostWrite at h
  split at h
  · cases h
  · rename_i h0 hp
    split at h
    · cases h
    · rename_i h1 hst
      refine exact_mark ?_ (Or.inl h)
      refine ⟨?_, he.2.1, ?_⟩
      · intro h2 hh2
        cases hh2
        rw [store_length hst]
        exact he.1 h0 hp
      · intro hz
        have := (he.2.2 hz).1
        rw [hp] at this
        cases this

theorem exact_deviceWrite {off : Nat} {data : List Byte} {b b1 : ManagedBuffer} (he : Exact b)
    (h : deviceWrite off data b = .ok b1) : Exact b1 := by
  unfold deviceWrite at h
  split at h
  · cases h
  · rename_i d0 hp
    split at h
    · cases h
    · rename_i d1 hst
      refine exact_mark ?_ (Or.inr h)
      refine ⟨he.1, ?_, ?_⟩
      · intro h2 hh2
        cases hh2
        rw [store_length hst]
        exact he.2.1 d0 hp
      · intro hz
        have := (he.2.2 hz).2
        rw [hp] at this
        cases this

theorem exact_step {env : Env} {op : Op} {b b1 : ManagedBuffer} (hi : Inv b) (he : Exact b)
    (hnz : op.nonzeroRequest) (h : step env op b = .ok b1) : Exact b1 := by
  cases op with
  | allocateHost n => exact exact_allocateHost hnz he h
  | allocateDevice n => exact exact_allocateDevice hnz he h
  | markHost => exact exact_mark he (Or.inl h)
  | markDevice => exact exact_mark he (Or.inr h)
  | sync => exact exact_sync hi he h
  | freeAll =>
    simp only [step, Except.ok.injEq] at h
    rw [← h]
    exact exact_empty
  | hostWrite off data => exact exact_hostWrite he h
  | deviceWrite off data => exact exact_deviceWrite he h

theorem exact_of_reachableBy {b : ManagedBuffer}
    (h : ReachableBy (fun op _ => op.nonzeroRequest) b) : Exact b := by
  induction h with
  | init => exact exact_empty
  | call env op hb hP hs ih =>
    exact exact_step (inv_of_reachable (reachable_of_reachableBy hb)) ih hP hs

/-- A call other than `freeAll` that returns on a buffer of size other than 0 leaves the
size as it was. -/
theorem step_size_fixed {env : Env} {op : Op} {b b1 : ManagedBuffer} (hz : b.size ≠ 0)
    (h : step env op b = .ok b1) : (op = Op.freeAll ∧ b1.size = 0) ∨ b1.size = b.size := by
  cases op with
  | allocateHost n =>
    simp only [step] at h
    unfold allocateHost at h
    rw [if_pos hz] at h
    cases h
  | allocateDevice n =>
    right
    simp only [step] at h
    unfold allocateDevice at h
    split at h
    · cases h
    · rename_i hmis
      split at h
      · cases h
      · rename_i b2 hc
        cases h
        exact (inv_createOnDevice hc).2.1
  | markHost =>
    right
    simp only [step, markHost, hz, if_false, Except.ok.injEq] at h
    rw [← h]
  | markDevice =>
    right
    simp only [step, markDevice, hz, if_false, Except.ok.injEq] at h
    rw [← h]
  | sync => exact Or.inr (sync_size h)
  | freeAll =>
    left
    simp only [step, Except.ok.injEq] at h
    exact ⟨rfl, by rw [← h]; rfl⟩
  | hostWrite off data =>
    right
    simp only [step, hostWrite] at h
    split at h
    · cases h
    · split at h
      · cases h
      · simp only [markHost, hz, if_false, Except.ok.injEq] at h
        rw [← h]
  | deviceWrite off data =>
    right
    simp only [step, deviceWrite] at h
    split at h
    · cases h
    · split at h
      · cases h
      · simp only [markDevice, hz, if_false, Except.ok.injEq] at h
        rw [← h]

end ManagedBuffer

/-- C17, as stated, fails on the code: `allocateHost(0)` returns (in `envOk`) with size 0
and the host side allocated, and a following `allocateDevice(5)` passes the guards,
sets the size to 5 and leaves the host block with 0 bytes.  Hence it is not the case
that in every state reached by the six calls each allocation has exactly `size` bytes
and size 0 comes only with no allocation. -/
theorem allocation_size_not_invariant :
    ManagedBuffer.run [(envOk, .allocateHost 0)] ManagedBuffer.empty = .ok zeroHostState ∧
    zeroHostState.size = 0 ∧ zeroHostState.hasHost = true ∧
    ManagedBuffer.step envOk (.allocateDevice 5) zeroHostState = .ok zeroThenFiveState ∧
    zeroThenFiveState.size = 5 ∧
    zeroThenFiveState.cpu_ptr = some { addr := 4096, bytes := [] } ∧
    ¬ (∀ (ops : List (Env × ManagedBuffer.Op)) (s : ManagedBuffer),
        (∀ eo ∈ ops, eo.2.basic) → ManagedBuffer.run ops ManagedBuffer.empty = .ok s →
        s.Exact) :=
  ⟨rfl, rfl, rfl, rfl, rfl, rfl, fun h =>
    have he := h [(envOk, .allocateHost 0)] zeroHostState
      (fun eo hm => by
        simp only [List.mem_singleton] at hm
        subst hm
        exact True.intro)
      rfl
    absurd (he.2.2 rfl).1 (by decide)⟩

/-- C17, amended: in every state reached from the empty buffer by returning calls of
`allocateHost(b)` and `allocateDevice(b)` with `b != 0`, `markHost`, `markDevice`, `sync`
and `freeAll` (and client writes), every existing allocation, host or device, has
exactly `size` bytes, size 0 holds only when neither side is allocated, and a size
other than 0 is changed by no returning call except `freeAll`, which sets it to 0. -/
theorem allocation_size_invariant (s : ManagedBuffer)
    (hr : ManagedBuffer.ReachableBy (fun op _ => op.nonzeroRequest) s) :
    (∀ h, s.cpu_ptr = some h → h.bytes.length = s.size) ∧
    (∀ d, s.gpu_ptr = some d → d.bytes.length = s.size) ∧
    (s.size = 0 → s.cpu_ptr = none ∧ s.gpu_ptr = none) ∧
    (∀ env op s1, s.size ≠ 0 → ManagedBuffer.step env op s = .ok s1 →
      (op = ManagedBuffer.Op.freeAll ∧ s1.size = 0) ∨ s1.size = s.size) :=
  have he := ManagedBuffer.exact_of_reachableBy hr
  ⟨he.1, he.2.1, he.2.2, fun _ _ _ hz hs => ManagedBuffer.step_size_fixed hz hs⟩

/-- Witness of the amended C17: the buffer of the cross-side scenario, whose two
allocations are of 12 bytes each. -/
theorem allocation_size_invariant_witness :
    (∀ h, crossSideState.cpu_ptr = some h → h.bytes.length = crossSideState.size) ∧
    (∀ d, crossSideState.gpu_ptr = some d → d.bytes.length = crossSideState.size) ∧
    (crossSideState.size = 0 → crossSideState.cpu_ptr = none ∧ crossSideState.gpu_ptr = none) ∧
    (∀ env op s1, crossSideState.size ≠ 0 → ManagedBuffer.step env op crossSideState = .ok s1 →
      (op = ManagedBuffer.Op.freeAll ∧ s1.size = 0) ∨ s1.size = crossSideState.size) :=
  allocation_size_invariant crossSideState
    (ManagedBuffer.reachableBy_of_run
      (fun eo hm _ => by
        simp only [crossSideOps, List.mem_cons, List.mem_singleton, List.not_mem_nil,
          or_false] at hm
        rcases hm with rfl | rfl | rfl | rfl
        · exact (by decide : (12 : Nat) ≠ 0)
        · exact True.intro
        · exact (by decide : (12 : Nat) ≠ 0)
        · exact True.intro)
      ManagedBuffer.ReachableBy.init
      (rfl : ManagedBuffer.run crossSideOps ManagedBuffer.empty = .ok crossSideState))

namespace ManagedBuffer

theorem dirtyExists_empty : DirtyExists empty := by
  refine ⟨?_, ?_⟩ <;> intro h <;> cases h

theorem dirtyExists_clean {b : ManagedBuffer} (h1 : b.host_dirty = false)
    (h2 : b.device_dirty = false) : DirtyExists b := by
  refine ⟨?_, ?_⟩
  · intro h; rw [h1] at h; cases h
  · intro h; rw [h2] at h; cases h

theorem dirtyExists_sync {env : Env} {b b1 : ManagedBuffer} (hd : DirtyExists b)
    (h : sync env b = .ok b1) : DirtyExists b1 := by
  by_cases hz : b.size = 0
  · unfold sync at h
    rw [if_pos hz] at h
    cases h; exact hd
  · by_cases hn : b.hostNewer = true
    · obtain ⟨_, _, _, _, _, h5, h6⟩ := sync_hostNewer_post hz hn h
      exact dirtyExists_clean h5 h6
    · by_cases hdn : b.deviceNewer = true
      · obtain ⟨_, _, _, _, _, h5, h6⟩ := sync_deviceNewer_post hz hdn h
        exact dirtyExists_clean h5 h6
      · unfold sync at h
        rw [if_neg hz, if_neg hn, if_neg hdn] at h
        cases h; exact hd

theorem dirtyExists_step {env : Env} {op : Op} {b b1 : ManagedBuffer} (hd : DirtyExists b)
    (hm : op.marksExisting b) (h : step env op b = .ok b1) : DirtyExists b1 := by
  cases op with
  | allocateHost n =>
    simp only [step] at h
    unfold allocateHost at h
    split at h
    · cases h
    · split at h
      · cases h
      · rename_i b2 hc
        cases h
        obtain ⟨_, _, _, _, hp⟩ := inv_createOnHost hc
        refine ⟨fun _ => ?_, fun hx => by cases hx⟩
        rcases hp with ⟨hp1, hne⟩ | ⟨_, f, _, hp1⟩
        · simp only [hasHost, hp1]
          exact Option.isSome_iff_ne_none.mpr hne
        · simp [hasHost, hp1]
  | allocateDevice n =>
    simp only [step] at h
    unfold allocateDevice at h
    split at h
    · cases h
    · split at h
      · cases h
      · rename_i b2 hc
        cases h
        obtain ⟨_, _, _, _, hp⟩ := inv_createOnDevice hc
        refine ⟨fun hx => (by cases hx), fun _ => ?_⟩
        rcases hp with ⟨hp1, hne⟩ | ⟨_, f, _, hp1⟩
        · simp only [hasDevice, hp1]
          have hne1 : b.gpu_ptr ≠ none := by
            by_cases hz0 : b.size = 0 <;> simpa [hz0] using hne
          by_cases hz0 : b.size = 0 <;> simpa [hz0] using Option.isSome_iff_ne_none.mpr hne1
        · simp [hasDevice, hp1]
  | markHost =>
    simp only [step, markHost] at h
    split at h
    · cases h
    · cases h
      exact ⟨fun _ => hm, fun hx => by cases hx⟩
  | markDevice =>
    simp only [step, markDevice] at h
    split at h
    · cases h
    · cases h
      exact ⟨fun hx => (by cases hx), fun _ => hm⟩
  | sync => exact dirtyExists_sync hd h
  | freeAll =>
    simp only [step, Except.ok.injEq] at h
    rw [← h]
    exact dirtyExists_empty
  | hostWrite off data =>
    simp only [step, hostWrite] at h
    split at h
    · cases h
    · split at h
      · cases h
      · simp only [markHost] at h
        split at h
        · cases h
        · cases h
          exact ⟨fun _ => rfl, fun hx => by cases hx⟩
  | deviceWrite off data =>
    simp only [step, deviceWrite] at h
    split at h
    · cases h
    · split at h
      · cases h
      · simp only [markDevice] at h
        split at h
        · cases h
        · cases h
          exact ⟨fun hx => (by cases hx), fun _ => rfl⟩

theorem dirtyExists_of_reachableBy {b : ManagedBuffer}
    (h : ReachableBy Op.marksExisting b) : DirtyExists b := by
  induction h with
  | init => exact dirtyExists_empty
  | call env op _ hP hs ih => exact dirtyExists_step ih hP hs

/-- When the side marked dirty is allocated, `sync()` never ends in an access through
a null pointer. -/
theorem sync_not_nullAccess {env : Env} {b : ManagedBuffer} (hd : DirtyExists b) :
    sync env b ≠ .error .nullAccess := by
  intro h
  unfold sync at h
  split at h
  · cases h
  · split at h
    · rename_i hn
      have hh : b.hasHost = true := hd.1 (by
        simp only [hostNewer, Bool.and_eq_true] at hn
        exact hn.1)
      obtain ⟨h0, hh0⟩ := Option.isSome_iff_exists.mp hh
      split at h
      · rename_i e hc
        unfold createOnDevice at hc
        split at hc
        · cases hc
        · split at hc
          · cases hc; cases h
          · cases hc
      · rename_i b2 hc
        obtain ⟨hcpu, _, _, _, hp⟩ := inv_createOnDevice hc
        have hg : ∃ d, b2.gpu_ptr = some d := by
          rcases hp with ⟨hp1, hne⟩ | ⟨_, f, _, hp1⟩
          · exact Option.ne_none_iff_exists'.mp (hp1 ▸ hne)
          · exact ⟨_, hp1⟩
        obtain ⟨d, hd2⟩ := hg
        rw [hd2, hcpu, hh0] at h
        simp only [cudaMemcpy] at h
        split at h
        · rename_i e hm
          split at hm
          · split at hm <;> cases hm
          · cases hm; cases h
        · cases h
        · cases h
    · split at h
      · rename_i hn
        have hh : b.hasDevice = true := hd.2 (by
          simp only [deviceNewer, Bool.and_eq_true] at hn
          exact hn.1)
        obtain ⟨d0, hd0⟩ := Option.isSome_iff_exists.mp hh
        split at h
        · rename_i e hc
          unfold createOnHost at hc
          split at hc
          · cases hc
          · split at hc
            · cases hc; cases h
            · cases hc
        · rename_i b2 hc
          obtain ⟨hgpu, _, _, _, hp⟩ := inv_createOnHost hc
          have hg : ∃ h1, b2.cpu_ptr = some h1 := by
            rcases hp with ⟨hp1, hne⟩ | ⟨_, f, _, hp1⟩
            · exact Option.ne_none_iff_exists'.mp (hp1 ▸ hne)
            · exact ⟨_, hp1⟩
          obtain ⟨h1, hh1⟩ := hg
          rw [hh1, hgpu, hd0] at h
          simp only [cudaMemcpy] at h
          split at h
          · rename_i e hm
            split at hm
            · split at hm <;> cases hm
            · cases hm; cases h
          · cases h
          · cases h
      · cases h

end ManagedBuffer

/-- C20, as stated, fails on the code: `allocateDevice(5)` followed by `markHost()`
returns (the guard of `markHost` looks at `size` only) and leaves `host_dirty` set
with no host side; the next `sync()` hands the null host pointer to `cudaMemcpy` as
the source.  Hence it is not the case that in every state reached by the six calls
the side marked dirty is allocated. -/
theorem dirty_side_can_be_absent :
    ManagedBuffer.run [(envOk, .allocateDevice 5), (envOk, .markHost)] ManagedBuffer.empty =
      .ok deviceOnlyMarkedHost ∧
    deviceOnlyMarkedHost.host_dirty = true ∧ deviceOnlyMarkedHost.hasHost = false ∧
    ManagedBuffer.sync envOk deviceOnlyMarkedHost = .error .nullAccess ∧
    ¬ (∀ (ops : List (Env × ManagedBuffer.Op)) (s : ManagedBuffer),
        (∀ eo ∈ ops, eo.2.basic) → ManagedBuffer.run ops ManagedBuffer.empty = .ok s →
        s.DirtyExists) :=
  ⟨rfl, rfl, rfl, rfl, fun h =>
    have hd := h [(envOk, .allocateDevice 5), (envOk, .markHost)] deviceOnlyMarkedHost
      (fun eo hm => by
        simp only [List.mem_cons, List.mem_singleton, List.not_mem_nil, or_false] at hm
        rcases hm with rfl | rfl <;> exact True.intro)
      rfl
    absurd (hd.1 rfl) (by decide)⟩

/-- C20, amended: in every state reached from the empty buffer by returning calls of
`allocateHost`, `allocateDevice`, `sync` and `freeAll` (and client writes), and of
`markHost` made while the host side is allocated and `markDevice` made while the
device side is allocated, `host_dirty` implies that the host side is allocated and
`device_dirty` that the device side is allocated; so the side `sync()` copies from
exists, and `sync()` never ends in an access through a null pointer. -/
theorem dirty_side_exists (s : ManagedBuffer)
    (hr : ManagedBuffer.ReachableBy ManagedBuffer.Op.marksExisting s) :
    (s.host_dirty = true → s.hasHost = true) ∧
    (s.device_dirty = true → s.hasDevice = true) ∧
    (s.hostNewer = true → s.cpu_ptr.isSome = true) ∧
    (s.deviceNewer = true → s.gpu_ptr.isSome = true) ∧
    (∀ env, ManagedBuffer.sync env s ≠ .error .nullAccess) := by
  have hd := ManagedBuffer.dirtyExists_of_reachableBy hr
  refine ⟨hd.1, hd.2, fun hn => ?_, fun hn => ?_, fun env => ManagedBuffer.sync_not_nullAccess hd⟩
  · simp only [ManagedBuffer.hostNewer, Bool.and_eq_true] at hn
    exact hd.1 hn.1
  · simp only [ManagedBuffer.deviceNewer, Bool.and_eq_true] at hn
    exact hd.2 hn.1

/-- Witness of the amended C20: the buffer of the cross-side scenario, whose device
side is dirty and allocated. -/
theorem dirty_side_exists_witness :
    (crossSideState.host_dirty = true → crossSideState.hasHost = true) ∧
    (crossSideState.device_dirty = true → crossSideState.hasDevice = true) ∧
    (crossSideState.hostNewer = true → crossSideState.cpu_ptr.isSome = true) ∧
    (crossSideState.deviceNewer = true → crossSideState.gpu_ptr.isSome = true) ∧
    (∀ env, ManagedBuffer.sync env crossSideState ≠ .error .nullAccess) :=
  dirty_side_exists crossSideState
    (ManagedBuffer.reachableBy_of_run
      (fun eo hm _ => by
        simp only [crossSideOps, List.mem_cons, List.mem_singleton, List.not_mem_nil,
          or_false] at hm
        rcases hm with rfl | rfl | rfl | rfl <;> exact True.intro)
      ManagedBuffer.ReachableBy.init
      (rfl : ManagedBuffer.run crossSideOps ManagedBuffer.empty = .ok crossSideState))

/-! ## The `allocateHost` guard and the history of calls -/

namespace ManagedBuffer

/-- A returning `allocateHost(n)` or `allocateDevice(n)` leaves `size = n`. -/
theorem allocate_size {env : Env} {n : Nat} {b b1 : ManagedBuffer}
    (h : allocateHost env n b = .ok b1 ∨ allocateDevice env n b = .ok b1) : b1.size = n := by
  rcases h with h | h
  · unfold allocateHost at h
    split at h
    · cases h
    · split at h
      · cases h
      · rename_i b2 hc
        cases h
        exact (inv_createOnHost hc).2.1
  · unfold allocateDevice at h
    split at h
    · cases h
    · rename_i hmis
      split at h
      · cases h
      · rename_i b2 hc
        cases h
        have hs := (inv_createOnDevice hc).2.1
        simp only at hs ⊢
        rw [hs]
        by_cases hz : b.size = 0
        · simp [hz]
        · simp only [hz, if_false]
          by_contra hne
          exact hmis ⟨hz, hne⟩

/-- What one returning call does to "the size is not 0". -/
theorem step_sizesNonzero {env : Env} {op : Op} {b b1 : ManagedBuffer}
    (h : step env op b = .ok b1) :
    decide (b1.size ≠ 0) = op.sizesNonzero (decide (b.size ≠ 0)) := by
  cases op with
  | allocateHost n =>
    have hs : b1.size = n := allocate_size (Or.inl h)
    simp only [Op.sizesNonzero, hs]
  | allocateDevice n =>
    have hs : b1.size = n := allocate_size (Or.inr h)
    simp only [Op.sizesNonzero, hs]
  | markHost =>
    simp only [step, markHost] at h
    split at h
    · cases h
    · cases h; rfl
  | markDevice =>
    simp only [step, markDevice] at h
    split at h
    · cases h
    · cases h; rfl
  | sync =>
    have hs : b1.size = b.size := sync_size h
    simp only [Op.sizesNonzero, hs]
  | freeAll =>
    simp only [step, Except.ok.injEq] at h
    rw [← h]
    rfl
  | hostWrite off data =>
    simp only [step, hostWrite] at h
    split at h
    · cases h
    · split at h
      · cases h
      · simp only [markHost] at h
        split at h
        · cases h
        · cases h; rfl
  | deviceWrite off data =>
    simp only [step, deviceWrite] at h
    split at h
    · cases h
    · split at h
      · cases h
      · simp only [markDevice] at h
        split at h
        · cases h
        · cases h; rfl

theorem run_sizesNonzero {ops : List (Env × Op)} {b s : ManagedBuffer}
    (h : run ops b = .ok s) :
    decide (s.size ≠ 0) =
      ops.foldl (fun acc eo => eo.2.sizesNonzero acc) (decide (b.size ≠ 0)) := by
  induction ops generalizing b with
  | nil =>
    simp only [run, Except.ok.injEq] at h
    rw [← h]
    rfl
  | cons eo rest ih =>
    obtain ⟨env, op⟩ := eo
    simp only [run] at h
    split at h
    · cases h
    · rename_i b2 hs
      rw [ih h, step_sizesNonzero hs]
      rfl

/-- After returning calls on the empty buffer the size is other than 0 exactly when
the buffer has been sized to a byte count other than 0 and not been released. -/
theorem size_ne_zero_iff_sizedNonzeroBy {ops : List (Env × Op)} {s : ManagedBuffer}
    (h : run ops empty = .ok s) : s.size ≠ 0 ↔ sizedNonzeroBy ops = true := by
  have hr := run_sizesNonzero h
  have he : decide (empty.size ≠ 0) = false := rfl
  rw [he] at hr
  unfold sizedNonzeroBy
  rw [← hr]
  simp

end ManagedBuffer

/-- C14, as stated, fails on the code: after the returning call `allocateHost(0)` the
buffer has been sized by an earlier successful call that has not been released, yet
`allocateHost(8)` does not fail: the guard sees `size == 0`, `createOnHost` keeps the
block of 0 bytes, and the call returns with `size = 8`.  Hence it is not the case that
`allocateHost(b)` fails fatally if and only if the buffer has been sized by an earlier
successful unreleased allocation. -/
theorem allocateHost_after_zero_request :
    ManagedBuffer.run [(envOk, .allocateHost 0)] ManagedBuffer.empty = .ok zeroHostState ∧
    sizedBy [(envOk, .allocateHost 0)] = true ∧
    ManagedBuffer.allocateHost envOk 8 zeroHostState = .ok zeroThenEightState ∧
    zeroThenEightState.size = 8 ∧
    zeroThenEightState.cpu_ptr = some { addr := 4096, bytes := [] } ∧
    ¬ (∀ (ops : List (Env × ManagedBuffer.Op)) (env : Env) (b : Nat) (s : ManagedBuffer),
        ManagedBuffer.run ops ManagedBuffer.empty = .ok s →
        (s.cpu_ptr.isSome = true ∨ env.malloc.isSome = true) →
        ((∃ e, ManagedBuffer.allocateHost env b s = .error e ∧ e.isAbort = true) ↔
          sizedBy ops = true)) :=
  ⟨rfl, rfl, rfl, rfl, rfl, fun h => by
    have hiff := h [(envOk, .allocateHost 0)] envOk 8 zeroHostState rfl (Or.inl rfl)
    obtain ⟨e, he, _⟩ := hiff.mpr rfl
    have hok : ManagedBuffer.allocateHost envOk 8 zeroHostState = .ok zeroThenEightState := rfl
    rw [hok] at he
    cases he⟩

/-- C14, amended (`allocateHost` contract): for every buffer state `s` and byte count `b`,
`allocateHost(b)` aborts with "Buffer already allocated" whenever `size != 0`; when the
host allocation succeeds (the host side exists or `malloc` does not fail) it fails
fatally if and only if `size != 0`, which for a buffer reached by returning calls from
the empty buffer holds if and only if the buffer has been sized to a byte count other
than 0 by an earlier successful `allocateHost`/`allocateDevice` call that has not been
released; otherwise it returns with `size = b`, the host side allocated (a new block
of `b` bytes if there was none), `host_dirty = true`, `device_dirty = false` and the
device pointer unchanged. -/
theorem allocateHost_contract (env : Env) (b : Nat) (s : ManagedBuffer) :
    (s.size ≠ 0 → ManagedBuffer.allocateHost env b s = .error .abortAlreadyAllocated) ∧
    (∀ ops, ManagedBuffer.run ops ManagedBuffer.empty = .ok s →
      (s.size ≠ 0 ↔ sizedNonzeroBy ops = true)) ∧
    ((s.cpu_ptr.isSome = true ∨ env.malloc.isSome = true) →
      ((∃ e, ManagedBuffer.allocateHost env b s = .error e ∧ e.isAbort = true) ↔ s.size ≠ 0) ∧
      (∀ ops, ManagedBuffer.run ops ManagedBuffer.empty = .ok s →
        ((∃ e, ManagedBuffer.allocateHost env b s = .error e ∧ e.isAbort = true) ↔
          sizedNonzeroBy ops = true)) ∧
      (s.size = 0 →
        ∃ s1, ManagedBuffer.allocateHost env b s = .ok s1 ∧ s1.size = b ∧ s1.hasHost = true ∧
          s1.host_dirty = true ∧ s1.device_dirty = false ∧ s1.gpu_ptr = s.gpu_ptr ∧
          (s.cpu_ptr = none → ∃ f, env.malloc = some f ∧ s1.cpu_ptr = some (f.block b)))) := by
  have hb := allocateHost_by_size env b s
  refine ⟨hb.1, fun ops hrun => ManagedBuffer.size_ne_zero_iff_sizedNonzeroBy hrun,
    fun hok => ⟨(hb.2 hok).1, fun ops hrun => ?_, (hb.2 hok).2⟩⟩
  exact (hb.2 hok).1.trans (ManagedBuffer.size_ne_zero_iff_sizedNonzeroBy hrun)

/-- Witness of the amended C14: on the buffer of the cross-side scenario (sized to 12
bytes) `allocateHost(12)` aborts; on the buffer left by `allocateHost(0)` (sized to 0
bytes only) `allocateHost(8)` returns with size 8. -/
theorem allocateHost_contract_witness :
    ManagedBuffer.allocateHost envOk 12 crossSideState = .error .abortAlreadyAllocated ∧
    (crossSideState.size ≠ 0 ↔ sizedNonzeroBy crossSideOps = true) ∧
    ((∃ e, ManagedBuffer.allocateHost envOk 8 zeroHostState = .error e ∧ e.isAbort = true) ↔
      sizedNonzeroBy [(envOk, .allocateHost 0)] = true) ∧
    (∃ s1, ManagedBuffer.allocateHost envOk 8 zeroHostState = .ok s1 ∧ s1.size = 8 ∧
      s1.hasHost = true ∧ s1.host_dirty = true ∧ s1.device_dirty = false ∧
      s1.gpu_ptr = zeroHostState.gpu_ptr ∧
      (zeroHostState.cpu_ptr = none →
        ∃ f, envOk.malloc = some f ∧ s1.cpu_ptr = some (f.block 8))) :=
  ⟨(allocateHost_contract envOk 12 crossSideState).1 (by decide),
    (allocateHost_contract envOk 12 crossSideState).2.1 crossSideOps rfl,
    ((allocateHost_contract envOk 8 zeroHostState).2.2 (Or.inl rfl)).2.1
      [(envOk, .allocateHost 0)] rfl,
    ((allocateHost_contract envOk 8 zeroHostState).2.2 (Or.inl rfl)).2.2 rfl⟩

end AltGPU
